import Mathlib

/-!
# Verification of `karmadactl deinit` (pkg/karmadactl/deinit.go)

This file shallowly embeds the teardown orchestrator of `deinit.go`:
the confirmation prompt, the per-kind discover-then-delete stages, the
node-label-strip pass, the `Complete` precondition checks and the
command entry point.  The cluster API client is an external
collaborator of the code; it is modelled as a record of response
functions over an abstract state `σ` (`Client`), and additionally
instantiated with a faithful in-memory cluster (`clusterClient`) for
the claims that speak about the resulting cluster state.  Every
interpreter returns the list of observable events (API calls and
printed lines) next to its result, so that call-ordering, dry-run
purity and short-circuit claims can be stated over traces.
-/

instance {ε α : Type} [DecidableEq ε] [DecidableEq α] : DecidableEq (Except ε α) := fun a b =>
  match a, b with
  | .error e, .error f =>
    if h : e = f then .isTrue (congrArg Except.error h)
    else .isFalse (fun hc => h (by injection hc))
  | .error _, .ok _ => .isFalse (fun hc => Except.noConfusion hc)
  | .ok _, .error _ => .isFalse (fun hc => Except.noConfusion hc)
  | .ok x, .ok y =>
    if h : x = y then .isTrue (congrArg Except.ok h)
    else .isFalse (fun hc => h (by injection hc))

/-- Association-list representation of a Kubernetes label map. -/
abbrev Labels := List (String × String)

/-- A namespaced or cluster-scoped object discovered by a label-selector
list call: only the name (the identity used by delete) and labels matter
to `deinit.go`. -/
structure KObj where
  name : String
  labels : Labels
deriving DecidableEq, Repr

/-- A cluster node: name and label map.  `deinit.go` never deletes nodes,
it only updates their label set. -/
structure KNode where
  name : String
  labels : Labels
deriving DecidableEq, Repr

/-- The five resource kinds deleted by `CommandDeInitOption.delete` /
`deleteWorkload`, in the fixed source order. -/
inductive Kind
  | deployment
  | statefulSet
  | service
  | secret
  | clusterRole
deriving DecidableEq, Repr

/-- A cluster-API error.  `deinit.go` never inspects errors, so only the
message and whether the error is a "not found" error (relevant to the
spec's absence-tolerance sentence) are modelled. -/
structure KErr where
  notFound : Bool
  msg : String
deriving DecidableEq, Repr

/-- Observable events of a run: API calls issued to the client and lines
printed to standard output. -/
inductive Event
  | listCall (k : Kind)
  | deleteCall (k : Kind) (name : String)
  | listNodesCall
  | updateNodeCall (name : String) (labels : Labels)
  | getNamespaceCall (ns : String)
  | print (msg : String)
deriving DecidableEq, Repr

/-- The cluster API client as seen by `deinit.go`: list/delete per kind,
list/update for nodes, all threaded through an abstract client state `σ`
(the live cluster, or a canned oracle). -/
structure Client (σ : Type) where
  listObjs : Kind → σ → Except KErr (List KObj) × σ
  deleteObj : Kind → String → σ → Except KErr Unit × σ
  listNodes : σ → Except KErr (List KNode) × σ
  updateNode : KNode → σ → Except KErr Unit × σ

/-- `const LabelSelector = "karmada.io/bootstrapping"`. -/
def LabelSelector : String := "karmada.io/bootstrapping"

/-- `const karmadaNodeLabel = "karmada.io/etcd"`. -/
def karmadaNodeLabel : String := "karmada.io/etcd"

/-- The options of the command (`CommandDeInitOption`): kubeconfig path
and dry-run flag from `GlobalCommandOptions`, namespace and context. -/
structure CommandDeInitOption where
  kubeConfig : String
  ns : String
  context : String
  dryRun : Bool
deriving DecidableEq, Repr

/-- Boolean test that `small` is a prefix of `big` (on character lists). -/
def isPrefixList : List Char → List Char → Bool
  | [], _ => true
  | _ :: _, [] => false
  | a :: as, b :: bs => a == b && isPrefixList as bs

/-- Boolean substring containment on character lists. -/
def containsSub (sub : List Char) : List Char → Bool
  | [] => isPrefixList sub []
  | c :: rest => isPrefixList sub (c :: rest) || containsSub sub rest

/-- `strings.Contains hay sub`. -/
def strContains (hay sub : String) : Bool :=
  containsSub sub.data hay.data

/-- `strings.ToLower` restricted to its ASCII behaviour (the tokens the
prompt compares against are ASCII). -/
def strToLower (s : String) : String :=
  ⟨s.data.map Char.toLower⟩

/-- `filepath.Join` for the one two-component use in `Complete`. -/
def filepathJoin (a b : String) : String :=
  if a == "" then b else a ++ "/" ++ b

/-- Go's `%q` on the plain resource names printed by `deinit.go`. -/
def goQuote (s : String) : String := "\"" ++ s ++ "\""

/-- The exact progress line printed for each matched object of each kind
(`fmt.Printf("delete deployment %q\n", ...)` etc.). -/
def printMsg : Kind → String → String
  | .deployment, n => "delete deployment " ++ goQuote n
  | .statefulSet, n => "delete StatefulSet: " ++ goQuote n
  | .service, n => "delete Service " ++ goQuote n
  | .secret, n => "delete Secrets " ++ goQuote n
  | .clusterRole, n => "delete ClusterRole " ++ goQuote n

/-- `fmt.Printf("remove node %q labels %q\n", ...)`. -/
def nodeRemoveMsg (name : String) : String :=
  "remove node " ++ goQuote name ++ " labels " ++ goQuote karmadaNodeLabel

/-- `fmt.Printf("node not found by label %q\n", ...)`. -/
def nodeNotFoundMsg : String :=
  "node not found by label " ++ goQuote karmadaNodeLabel

/-- The prompt line of `deleteConfirmation`. -/
def promptMsg : String := "Please type (y)es or (n)o and then press enter:"

/-- The final success message of `Run`. -/
def successMsg : String :=
  "remove Karmada from Kubernetes successfully." ++
  "\ndeinit will not delete etcd data, if the etcd data is persistent, please delete it yourself."

/-- Outcome of the confirmation prompt: an answer, or process
termination via `os.Exit`. -/
inductive ConfirmOutcome
  | answer (b : Bool)
  | exited (code : Nat)
deriving DecidableEq, Repr

/-- `deleteConfirmation`: prompts, scans one token, lowercases it and
matches `y`/`yes`/`n`/`no`, recursing on anything else.  The input is the
stream of `fmt.Scanln` results; a scan error (`.error m`) prints the
error and exits the process with status 1, exactly as the source does.
An exhausted stream is the same boundary condition (reading fails). -/
def deleteConfirmation : List (Except String String) → List Event × ConfirmOutcome
  | [] => ([Event.print promptMsg], .exited 1)
  | .error m :: _ => ([Event.print promptMsg, Event.print m], .exited 1)
  | .ok response :: rest =>
    let low := strToLower response
    if low == "y" || low == "yes" then ([Event.print promptMsg], .answer true)
    else if low == "n" || low == "no" then ([Event.print promptMsg], .answer false)
    else
      let r := deleteConfirmation rest
      (Event.print promptMsg :: r.1, r.2)

/-- One deletion loop body shared by all five kinds: for each listed
object print the progress line, skip the API call under dry-run, and
otherwise issue the delete and fail fast on any error — `deinit.go`
checks `err != nil` only, it never tests for "not found". -/
def retireLoop {σ : Type} (c : Client σ) (dryRun : Bool) (k : Kind) :
    List KObj → σ → List Event × Except KErr Unit × σ
  | [], s => ([], Except.ok (), s)
  | x :: xs, s =>
    let pe := Event.print (printMsg k x.name)
    if dryRun then
      let r := retireLoop c dryRun k xs s
      (pe :: r.1, r.2.1, r.2.2)
    else
      match c.deleteObj k x.name s with
      | (.error e, s') => ([pe, Event.deleteCall k x.name], Except.error e, s')
      | (.ok (), s') =>
        let r := retireLoop c dryRun k xs s'
        (pe :: Event.deleteCall k x.name :: r.1, r.2.1, r.2.2)

/-- One discover-then-retire stage: list a kind by `LabelSelector`, fail
fast on a list error, then run the deletion loop over the items. -/
def deleteStage {σ : Type} (c : Client σ) (dryRun : Bool) (k : Kind) (s : σ) :
    List Event × Except KErr Unit × σ :=
  match c.listObjs k s with
  | (.error e, s') => ([Event.listCall k], Except.error e, s')
  | (.ok items, s') =>
    let r := retireLoop c dryRun k items s'
    (Event.listCall k :: r.1, r.2.1, r.2.2)

/-- Sequencing of two traced steps with fail-fast: the second step runs
only when the first returned `ok`. -/
def andThen {σ : Type} (a : List Event × Except KErr Unit × σ)
    (f : σ → List Event × Except KErr Unit × σ) : List Event × Except KErr Unit × σ :=
  match a with
  | (tr, .error e, s) => (tr, Except.error e, s)
  | (tr, .ok (), s) =>
    let r := f s
    (tr ++ r.1, r.2.1, r.2.2)

/-- `CommandDeInitOption.deleteWorkload`: Deployments then StatefulSets,
in that order, fail-fast. -/
def CommandDeInitOption.deleteWorkload {σ : Type} (o : CommandDeInitOption)
    (c : Client σ) (s : σ) : List Event × Except KErr Unit × σ :=
  andThen (deleteStage c o.dryRun .deployment s) (fun s₁ =>
    deleteStage c o.dryRun .statefulSet s₁)

/-- `CommandDeInitOption.delete`: workloads first, then Services,
Secrets and ClusterRoles, each stage fail-fast. -/
def CommandDeInitOption.delete {σ : Type} (o : CommandDeInitOption)
    (c : Client σ) (s : σ) : List Event × Except KErr Unit × σ :=
  andThen (o.deleteWorkload c s) (fun s₁ =>
    andThen (deleteStage c o.dryRun .service s₁) (fun s₂ =>
      andThen (deleteStage c o.dryRun .secret s₂) (fun s₃ =>
        deleteStage c o.dryRun .clusterRole s₃)))

/-- `removeLabels`: drop every label whose key contains the marker
substring (Go ranges over the map and `delete`s matching keys). -/
def removeLabels (labels : Labels) (removesLabel : String) : Labels :=
  labels.filter (fun kv => !strContains kv.1 removesLabel)

/-- The per-node loop of `removeNodeLabels`: strip the labels of the
local copy, print the progress line, skip the update under dry-run, and
otherwise issue the node update, failing fast on any error. -/
def nodeLoop {σ : Type} (c : Client σ) (dryRun : Bool) :
    List KNode → σ → List Event × Except KErr Unit × σ
  | [], s => ([], Except.ok (), s)
  | n :: ns, s =>
    let n' : KNode := ⟨n.name, removeLabels n.labels karmadaNodeLabel⟩
    let pe := Event.print (nodeRemoveMsg n.name)
    if dryRun then
      let r := nodeLoop c dryRun ns s
      (pe :: r.1, r.2.1, r.2.2)
    else
      match c.updateNode n' s with
      | (.error e, s') => ([pe, Event.updateNodeCall n'.name n'.labels], Except.error e, s')
      | (.ok (), s') =>
        let r := nodeLoop c dryRun ns s'
        (pe :: Event.updateNodeCall n'.name n'.labels :: r.1, r.2.1, r.2.2)

/-- `CommandDeInitOption.removeNodeLabels`: list nodes by
`karmadaNodeLabel`; an empty match prints an informational line and
succeeds; otherwise each node is stripped and updated. -/
def CommandDeInitOption.removeNodeLabels {σ : Type} (o : CommandDeInitOption)
    (c : Client σ) (s : σ) : List Event × Except KErr Unit × σ :=
  match c.listNodes s with
  | (.error e, s') => ([Event.listNodesCall], Except.error e, s')
  | (.ok nodes, s') =>
    if nodes.length == 0 then
      ([Event.listNodesCall, Event.print nodeNotFoundMsg], Except.ok (), s')
    else
      let r := nodeLoop c o.dryRun nodes s'
      (Event.listNodesCall :: r.1, r.2.1, r.2.2)

/-- A `deinit` failure: the sentinel `ErrEmptyConfig` from the
kubeconfig existence check, or an error surfaced from the API. -/
inductive DeinitErr
  | emptyConfig
  | api (e : KErr)
deriving DecidableEq, Repr

/-- Outcome of the command: success, a surfaced error, or process
termination from inside the confirmation prompt. -/
inductive Outcome
  | ok
  | fail (e : DeinitErr)
  | exited (code : Nat)
deriving DecidableEq, Repr

/-- `CommandDeInitOption.Run`: print the banner, ask for confirmation
(`false` returns success immediately), then `delete` and
`removeNodeLabels`, fail-fast, then the final success message. -/
def CommandDeInitOption.Run {σ : Type} (o : CommandDeInitOption) (c : Client σ)
    (input : List (Except String String)) (s : σ) : List Event × Outcome × σ :=
  let hd := Event.print "removes Karmada from Kubernetes"
  match deleteConfirmation input with
  | (ctr, .exited n) => (hd :: ctr, Outcome.exited n, s)
  | (ctr, .answer false) => (hd :: ctr, Outcome.ok, s)
  | (ctr, .answer true) =>
    match o.delete c s with
    | (tr, .error e, s') => (hd :: ctr ++ tr, Outcome.fail (.api e), s')
    | (tr, .ok (), s') =>
      match o.removeNodeLabels c s' with
      | (tr2, .error e, s'') => (hd :: ctr ++ tr ++ tr2, Outcome.fail (.api e), s'')
      | (tr2, .ok (), s'') =>
        (hd :: ctr ++ tr ++ tr2 ++ [Event.print successMsg], Outcome.ok, s'')

/-- The environment consulted by `Complete`, modelling the boundary
collaborators it calls: `$HOME`, the `Exists` file check, the outcomes
of `utils.RestConfig`, `utils.NewClientSet` and the namespace `Get`. -/
structure CompleteEnv where
  home : String
  fileExists : String → Bool
  restConfig : Except KErr Unit
  newClientSet : Except KErr Unit
  getNamespace : String → Except KErr Unit

/-- The kubeconfig path `Complete` checks: the flag value, or
`$HOME/.kube/config` when the flag is empty. -/
def CommandDeInitOption.completeKubeConfig (o : CommandDeInitOption)
    (env : CompleteEnv) : String :=
  if o.kubeConfig == "" then filepathJoin env.home ".kube/config" else o.kubeConfig

/-- `CommandDeInitOption.Complete`: default the kubeconfig path, return
`ErrEmptyConfig` when the file is absent, build the rest config and the
client set, and `Get` the target namespace; each step fail-fast. -/
def CommandDeInitOption.Complete (o : CommandDeInitOption) (env : CompleteEnv) :
    List Event × Except DeinitErr Unit :=
  if !env.fileExists (o.completeKubeConfig env) then ([], Except.error .emptyConfig)
  else match env.restConfig with
  | .error e => ([], Except.error (.api e))
  | .ok () => match env.newClientSet with
    | .error e => ([], Except.error (.api e))
    | .ok () => match env.getNamespace o.ns with
      | .error e => ([Event.getNamespaceCall o.ns], Except.error (.api e))
      | .ok () => ([Event.getNamespaceCall o.ns], Except.ok ())

/-- The `RunE` closure installed by `NewCmdDeInit`: `Complete` first,
and only on its success `Run`. -/
def NewCmdDeInitRunE {σ : Type} (o : CommandDeInitOption) (env : CompleteEnv)
    (c : Client σ) (input : List (Except String String)) (s : σ) :
    List Event × Outcome × σ :=
  match o.Complete env with
  | (ctr, .error e) => (ctr, Outcome.fail e, s)
  | (ctr, .ok ()) =>
    let r := o.Run c input s
    (ctr ++ r.1, r.2.1, r.2.2)

/-- A canned, stateless client: each call answers from a fixed table.
Used to inject arbitrary API responses (errors included). -/
def oracleClient (lists : Kind → Except KErr (List KObj))
    (dels : Kind → String → Except KErr Unit)
    (nodesL : Except KErr (List KNode))
    (upd : KNode → Except KErr Unit) : Client Unit where
  listObjs k _ := (lists k, ())
  deleteObj k n _ := (dels k n, ())
  listNodes _ := (nodesL, ())
  updateNode n _ := (upd n, ())

/-- Does a label map carry this exact key? -/
def hasLabelKey (ls : Labels) (key : String) : Bool :=
  ls.any (fun kv => kv.1 == key)

/-- An in-memory cluster: the object lists of the five kinds plus the
node list. -/
structure Cluster where
  deployments : List KObj
  statefulSets : List KObj
  services : List KObj
  secrets : List KObj
  clusterRoles : List KObj
  nodes : List KNode
deriving DecidableEq, Repr

/-- The object list of a kind. -/
def Cluster.objsOf (c : Cluster) : Kind → List KObj
  | .deployment => c.deployments
  | .statefulSet => c.statefulSets
  | .service => c.services
  | .secret => c.secrets
  | .clusterRole => c.clusterRoles

/-- Replace the object list of a kind. -/
def Cluster.setObjs (c : Cluster) : Kind → List KObj → Cluster
  | .deployment, l => { c with deployments := l }
  | .statefulSet, l => { c with statefulSets := l }
  | .service, l => { c with services := l }
  | .secret, l => { c with secrets := l }
  | .clusterRole, l => { c with clusterRoles := l }

/-- A "not found" API error for a name. -/
def notFoundKErr (n : String) : KErr := ⟨true, n ++ " not found"⟩

/-- Modelled from the spec: the faithful cluster API client over an
in-memory `Cluster`, with the standard Kubernetes semantics the spec
assigns to the external client (§6): list-by-label-selector matches
objects carrying the selector key; delete-by-name removes the object or
answers "not found"; node list matches the exact node-label key; node
update replaces the stored node of that name. -/
def clusterClient : Client Cluster where
  listObjs k s :=
    (Except.ok ((s.objsOf k).filter (fun x => hasLabelKey x.labels LabelSelector)), s)
  deleteObj k n s :=
    if (s.objsOf k).any (fun x => x.name == n) then
      (Except.ok (), s.setObjs k ((s.objsOf k).filter (fun x => !(x.name == n))))
    else (Except.error (notFoundKErr n), s)
  listNodes s :=
    (Except.ok (s.nodes.filter (fun n => hasLabelKey n.labels karmadaNodeLabel)), s)
  updateNode n s :=
    if s.nodes.any (fun m => m.name == n.name) then
      (Except.ok (), { s with nodes := s.nodes.map (fun m => if m.name == n.name then n else m) })
    else (Except.error (notFoundKErr n.name), s)

/-- The trace a dry-run stage leaves: the list call followed by one
notice per matched object. -/
def dryStageTrace (items : Kind → List KObj) (k : Kind) : List Event :=
  Event.listCall k :: (items k).map (fun x => Event.print (printMsg k x.name))

/-- Default options of a concrete invocation (flag defaults of
`NewCmdDeInit`): empty kubeconfig flag, `karmada-system` namespace,
empty context, no dry-run. -/
def demoOpt : CommandDeInitOption := ⟨"", "karmada-system", "", false⟩

/-- The same options with the dry-run flag set. -/
def demoOptDry : CommandDeInitOption := ⟨"", "karmada-system", "", true⟩

/-- A canned client on which every call succeeds and every list is
empty. -/
def okClient : Client Unit :=
  oracleClient (fun _ => Except.ok []) (fun _ _ => Except.ok ())
    (Except.ok []) (fun _ => Except.ok ())

/-- Canned list tables for a concrete dry run: one object per kind. -/
def dryLists : Kind → Except KErr (List KObj) := fun _ => Except.ok [⟨"obj", []⟩]

/-- The items behind `dryLists`. -/
def dryItems : Kind → List KObj := fun _ => [⟨"obj", []⟩]

/-- One labelled node for the concrete dry run. -/
def dryNodes : List KNode := [⟨"node1", [("karmada.io/etcd", "")]⟩]

/-- The oracle client of the concrete dry run. -/
def dryClient : Client Unit :=
  oracleClient dryLists (fun _ _ => Except.ok ()) (Except.ok dryNodes)
    (fun _ => Except.ok ())

/-- List table of the C1 scenario: one bootstrap-labelled deployment,
nothing else. -/
def cexLists : Kind → Except KErr (List KObj)
  | .deployment =>
    Except.ok [⟨"karmada-demo", [("karmada.io/bootstrapping", "resource-defaults")]⟩]
  | _ => Except.ok []

/-- Delete table of the C1 scenario: every delete answers "not found"
(the object vanished between the list and the delete). -/
def cexDels : Kind → String → Except KErr Unit := fun _ n =>
  Except.error (notFoundKErr n)

/-- The canned client of the C1 scenario. -/
def cexClient : Client Unit :=
  oracleClient cexLists cexDels (Except.ok []) (fun _ => Except.ok ())

/-- A cluster whose only node carries a key that merely *contains* the
marker substring (`karmada.io/etcdx`), without the exact marker key. -/
def etcdVariantCluster : Cluster :=
  ⟨[], [], [], [], [], [⟨"n1", [("karmada.io/etcdx", "1")]⟩]⟩

/-- A cluster whose only node carries the exact marker key next to an
unrelated label. -/
def etcdCluster : Cluster :=
  ⟨[], [], [], [], [], [⟨"n1", [("karmada.io/etcd", ""), ("other.io/x", "1")]⟩]⟩

/-- An environment whose file check always fails: `$HOME` is `/root`
and no kubeconfig file exists. -/
def absentEnv : CompleteEnv :=
  ⟨"/root", fun _ => false, Except.ok (), Except.ok (), fun _ => Except.ok ()⟩

/-- Stage index of each kind, in the fixed source order. -/
def stageNum : Kind → Nat
  | .deployment => 0
  | .statefulSet => 1
  | .service => 2
  | .secret => 3
  | .clusterRole => 4

/-- Stage index of an event; prints and the namespace get carry none,
node-pass calls are the final stage 5. -/
def stageOf : Event → Option Nat
  | .listCall k => some (stageNum k)
  | .deleteCall k _ => some (stageNum k)
  | .listNodesCall => some 5
  | .updateNodeCall _ _ => some 5
  | .getNamespaceCall _ => none
  | .print _ => none

/-- The stage indices occurring along a trace, in order. -/
def levels (tr : List Event) : List Nat := tr.filterMap stageOf

/-- The stage indices of a trace are non-decreasing and all lie in
`[lo, hi]`: the trace never revisits an earlier stage. -/
def SLB (tr : List Event) (lo hi : Nat) : Prop :=
  (levels tr).Pairwise (· ≤ ·) ∧ ∀ x ∈ levels tr, lo ≤ x ∧ x ≤ hi

/-- Is the event a mutation request (delete or node update)? -/
def isMutation : Event → Bool
  | .deleteCall _ _ => true
  | .updateNodeCall _ _ => true
  | _ => false

/-- Is the event a printed line? -/
def isPrint : Event → Bool
  | .print _ => true
  | _ => false

/-! ## Helper lemmas -/

theorem deleteConfirmation_trace_prints (input : List (Except String String)) :
    ∀ ev ∈ (deleteConfirmation input).1, isPrint ev = true := by
  induction input with
  | nil => intro ev h; simp [deleteConfirmation] at h; simp [h, isPrint]
  | cons hd tl ih =>
    intro ev h
    cases hd with
    | error m =>
      simp [deleteConfirmation] at h
      rcases h with h | h <;> simp [h, isPrint]
    | ok response =>
      simp only [deleteConfirmation] at h
      by_cases h1 : (strToLower response == "y" || strToLower response == "yes") = true
      · simp [h1] at h; simp [h, isPrint]
      · simp only [Bool.not_eq_true] at h1
        simp only [h1, Bool.false_eq_true, if_false] at h
        by_cases h2 : (strToLower response == "n" || strToLower response == "no") = true
        · simp [h2] at h; simp [h, isPrint]
        · simp only [Bool.not_eq_true] at h2
          simp only [h2, Bool.false_eq_true, if_false, List.mem_cons] at h
          rcases h with h | h
          · simp [h, isPrint]
          · exact ih ev h

theorem retireLoop_dry {σ : Type} (c : Client σ) (k : Kind) :
    ∀ (xs : List KObj) (s : σ),
      retireLoop c true k xs s
        = (xs.map (fun x => Event.print (printMsg k x.name)), Except.ok (), s) := by
  intro xs
  induction xs with
  | nil => intro s; rfl
  | cons x xs ih => intro s; simp [retireLoop, ih]

theorem nodeLoop_dry {σ : Type} (c : Client σ) :
    ∀ (ns : List KNode) (s : σ),
      nodeLoop c true ns s
        = (ns.map (fun n => Event.print (nodeRemoveMsg n.name)), Except.ok (), s) := by
  intro ns
  induction ns with
  | nil => intro s; rfl
  | cons n ns ih => intro s; simp [nodeLoop, ih]

theorem retireLoop_stageOf {σ : Type} (c : Client σ) (d : Bool) (k : Kind) :
    ∀ (xs : List KObj) (s : σ) (ev : Event), ev ∈ (retireLoop c d k xs s).1 →
      stageOf ev = none ∨ stageOf ev = some (stageNum k) := by
  intro xs
  induction xs with
  | nil => intro s ev h; simp [retireLoop] at h
  | cons x xs ih =>
    intro s ev h
    cases d with
    | true =>
      simp only [retireLoop, if_true, List.mem_cons] at h
      rcases h with h | h
      · left; simp [h, stageOf]
      · exact ih s ev h
    | false =>
      simp only [retireLoop, Bool.false_eq_true, if_false] at h
      rcases hdel : c.deleteObj k x.name s with ⟨res, s'⟩
      cases res with
      | error e =>
        rw [hdel] at h; simp at h
        rcases h with h | h
        · left; simp [h, stageOf]
        · right; simp [h, stageOf]
      | ok u =>
        cases u
        rw [hdel] at h; simp at h
        rcases h with h | h | h
        · left; simp [h, stageOf]
        · right; simp [h, stageOf]
        · exact ih s' ev h

theorem deleteStage_stageOf {σ : Type} (c : Client σ) (d : Bool) (k : Kind) (s : σ)
    (ev : Event) (h : ev ∈ (deleteStage c d k s).1) :
    stageOf ev = none ∨ stageOf ev = some (stageNum k) := by
  rcases hl : c.listObjs k s with ⟨res, s'⟩
  cases res with
  | error e =>
    simp only [deleteStage, hl] at h; simp at h
    right; simp [h, stageOf]
  | ok items =>
    simp only [deleteStage, hl, List.mem_cons] at h
    rcases h with h | h
    · right; simp [h, stageOf]
    · exact retireLoop_stageOf c d k items s' ev h

theorem andThen_mem {σ : Type} (a : List Event × Except KErr Unit × σ)
    (f : σ → List Event × Except KErr Unit × σ) (ev : Event)
    (h : ev ∈ (andThen a f).1) : ev ∈ a.1 ∨ ev ∈ (f a.2.2).1 := by
  rcases a with ⟨tr, res, s⟩
  cases res with
  | error e => simp only [andThen] at h; exact Or.inl h
  | ok u =>
    cases u
    simp only [andThen, List.mem_append] at h
    exact h

theorem andThen_error {σ : Type} (tr : List Event) (e : KErr) (s : σ)
    (f : σ → List Event × Except KErr Unit × σ) :
    andThen (tr, Except.error e, s) f = (tr, Except.error e, s) := rfl

theorem andThen_ok {σ : Type} (tr : List Event) (s : σ)
    (f : σ → List Event × Except KErr Unit × σ) :
    andThen (tr, Except.ok (), s) f = (tr ++ (f s).1, (f s).2.1, (f s).2.2) := rfl

theorem deleteWorkload_stageOf {σ : Type} (o : CommandDeInitOption) (c : Client σ) (s : σ)
    (ev : Event) (h : ev ∈ (o.deleteWorkload c s).1) :
    stageOf ev = none ∨ stageOf ev = some 0 ∨ stageOf ev = some 1 := by
  rcases andThen_mem _ _ _ h with h1 | h1
  · rcases deleteStage_stageOf c o.dryRun .deployment s ev h1 with h2 | h2
    · exact Or.inl h2
    · exact Or.inr (Or.inl h2)
  · rcases deleteStage_stageOf c o.dryRun .statefulSet _ ev h1 with h2 | h2
    · exact Or.inl h2
    · exact Or.inr (Or.inr h2)

theorem delete_stageOf {σ : Type} (o : CommandDeInitOption) (c : Client σ) (s : σ)
    (ev : Event) (h : ev ∈ (o.delete c s).1) :
    stageOf ev = none ∨ ∃ m, stageOf ev = some m ∧ m ≤ 4 := by
  rcases andThen_mem _ _ _ h with h1 | h1
  · rcases deleteWorkload_stageOf o c s ev h1 with h2 | h2 | h2
    · exact Or.inl h2
    · exact Or.inr ⟨0, h2, by omega⟩
    · exact Or.inr ⟨1, h2, by omega⟩
  · rcases andThen_mem _ _ _ h1 with h2 | h2
    · rcases deleteStage_stageOf c o.dryRun .service _ ev h2 with h3 | h3
      · exact Or.inl h3
      · exact Or.inr ⟨2, h3, by omega⟩
    · rcases andThen_mem _ _ _ h2 with h3 | h3
      · rcases deleteStage_stageOf c o.dryRun .secret _ ev h3 with h4 | h4
        · exact Or.inl h4
        · exact Or.inr ⟨3, h4, by omega⟩
      · rcases deleteStage_stageOf c o.dryRun .clusterRole _ ev h3 with h4 | h4
        · exact Or.inl h4
        · exact Or.inr ⟨4, h4, by omega⟩

theorem nodeLoop_stageOf {σ : Type} (c : Client σ) (d : Bool) :
    ∀ (ns : List KNode) (s : σ) (ev : Event), ev ∈ (nodeLoop c d ns s).1 →
      stageOf ev = none ∨ stageOf ev = some 5 := by
  intro ns
  induction ns with
  | nil => intro s ev h; simp [nodeLoop] at h
  | cons n ns ih =>
    intro s ev h
    cases d with
    | true =>
      simp only [nodeLoop, if_true, List.mem_cons] at h
      rcases h with h | h
      · left; simp [h, stageOf]
      · exact ih s ev h
    | false =>
      simp only [nodeLoop, Bool.false_eq_true, if_false] at h
      rcases hupd : c.updateNode ⟨n.name, removeLabels n.labels karmadaNodeLabel⟩ s
        with ⟨res, s'⟩
      cases res with
      | error e =>
        rw [hupd] at h; simp at h
        rcases h with h | h
        · left; simp [h, stageOf]
        · right; simp [h, stageOf]
      | ok u =>
        cases u
        rw [hupd] at h; simp at h
        rcases h with h | h | h
        · left; simp [h, stageOf]
        · right; simp [h, stageOf]
        · exact ih s' ev h

theorem removeNodeLabels_stageOf {σ : Type} (o : CommandDeInitOption) (c : Client σ) (s : σ)
    (ev : Event) (h : ev ∈ (o.removeNodeLabels c s).1) :
    stageOf ev = none ∨ stageOf ev = some 5 := by
  rcases hl : c.listNodes s with ⟨res, s'⟩
  cases res with
  | error e =>
    simp only [CommandDeInitOption.removeNodeLabels, hl] at h; simp at h
    right; simp [h, stageOf]
  | ok nodes =>
    simp only [CommandDeInitOption.removeNodeLabels, hl] at h
    by_cases hn : (nodes.length == 0) = true
    · simp [hn] at h
      rcases h with h | h
      · right; simp [h, stageOf]
      · left; simp [h, stageOf]
    · simp only [Bool.not_eq_true] at hn
      simp only [hn, Bool.false_eq_true, if_false, List.mem_cons] at h
      rcases h with h | h
      · right; simp [h, stageOf]
      · exact nodeLoop_stageOf c o.dryRun nodes s' ev h

theorem levels_mem {tr : List Event} {x : Nat} (h : x ∈ levels tr) :
    ∃ ev ∈ tr, stageOf ev = some x := by
  simp only [levels, List.mem_filterMap] at h
  exact h

theorem SLB_of_stage_const {tr : List Event} {c : Nat}
    (h : ∀ ev ∈ tr, stageOf ev = none ∨ stageOf ev = some c) : SLB tr c c := by
  have hx : ∀ x ∈ levels tr, x = c := by
    intro x hx
    rcases levels_mem hx with ⟨ev, hev, hst⟩
    rcases h ev hev with h1 | h1
    · rw [h1] at hst; cases hst
    · rw [h1] at hst; injection hst with h2; exact h2.symm
  constructor
  · have : ∀ (l : List Nat), (∀ x ∈ l, x = c) → l.Pairwise (· ≤ ·) := by
      intro l
      induction l with
      | nil => intro; exact List.Pairwise.nil
      | cons a l ih =>
        intro hl
        constructor
        · intro b hb
          rw [hl a (by simp), hl b (by simp [hb])]
        · exact ih (fun x hx => hl x (by simp [hx]))
    exact this _ hx
  · intro x hxm
    rw [hx x hxm]
    exact ⟨le_refl c, le_refl c⟩

theorem SLB_of_stage_none {tr : List Event} (lo hi : Nat)
    (h : ∀ ev ∈ tr, stageOf ev = none) : SLB tr lo hi := by
  have hnil : levels tr = [] := by
    simp only [levels, List.filterMap_eq_nil_iff]
    exact h
  constructor
  · rw [hnil]; exact List.Pairwise.nil
  · rw [hnil]; intro x hx; cases hx

theorem SLB_weaken {tr : List Event} {lo hi lo' hi' : Nat}
    (hlo : lo' ≤ lo) (hhi : hi ≤ hi') (h : SLB tr lo hi) : SLB tr lo' hi' := by
  refine ⟨h.1, fun x hx => ?_⟩
  rcases h.2 x hx with ⟨h1, h2⟩
  exact ⟨le_trans hlo h1, le_trans h2 hhi⟩

theorem SLB_append {t₁ t₂ : List Event} {lo₁ hi₁ lo₂ hi₂ : Nat}
    (h₁ : SLB t₁ lo₁ hi₁) (h₂ : SLB t₂ lo₂ hi₂) (hmid : hi₁ ≤ lo₂)
    (hlo : lo₁ ≤ lo₂) (hhi : hi₁ ≤ hi₂) : SLB (t₁ ++ t₂) lo₁ hi₂ := by
  have hlev : levels (t₁ ++ t₂) = levels t₁ ++ levels t₂ := by
    simp [levels]
  constructor
  · rw [hlev, List.pairwise_append]
    refine ⟨h₁.1, h₂.1, fun a ha b hb => ?_⟩
    exact le_trans (h₁.2 a ha).2 (le_trans hmid (h₂.2 b hb).1)
  · rw [hlev]
    intro x hx
    rcases List.mem_append.mp hx with hx | hx
    · rcases h₁.2 x hx with ⟨ha, hb⟩
      exact ⟨ha, le_trans hb hhi⟩
    · rcases h₂.2 x hx with ⟨ha, hb⟩
      exact ⟨le_trans hlo ha, hb⟩

theorem SLB_cons_print {tr : List Event} {lo hi : Nat} (m : String)
    (h : SLB tr lo hi) : SLB (Event.print m :: tr) lo hi := by
  have : levels (Event.print m :: tr) = levels tr := by
    simp [levels, List.filterMap_cons, stageOf]
  exact ⟨by rw [this]; exact h.1, by rw [this]; exact h.2⟩

theorem SLB_andThen {σ : Type} {a : List Event × Except KErr Unit × σ}
    {f : σ → List Event × Except KErr Unit × σ} {lo₁ hi₁ lo₂ hi₂ : Nat}
    (h₁ : SLB a.1 lo₁ hi₁) (h₂ : ∀ s, SLB (f s).1 lo₂ hi₂) (hmid : hi₁ ≤ lo₂)
    (hlo : lo₁ ≤ lo₂) (hhi : hi₁ ≤ hi₂) : SLB (andThen a f).1 lo₁ hi₂ := by
  rcases a with ⟨tr, res, s⟩
  cases res with
  | error e =>
    simp only [andThen]
    exact SLB_weaken (le_refl _) hhi h₁
  | ok u =>
    cases u
    simp only [andThen]
    exact SLB_append h₁ (h₂ s) hmid hlo hhi

theorem SLB_deleteStage {σ : Type} (c : Client σ) (d : Bool) (k : Kind) (s : σ) :
    SLB (deleteStage c d k s).1 (stageNum k) (stageNum k) :=
  SLB_of_stage_const (fun ev h => deleteStage_stageOf c d k s ev h)

theorem SLB_deleteWorkload {σ : Type} (o : CommandDeInitOption) (c : Client σ) (s : σ) :
    SLB (o.deleteWorkload c s).1 0 1 := by
  unfold CommandDeInitOption.deleteWorkload
  exact SLB_andThen (SLB_deleteStage c o.dryRun .deployment s)
    (fun s₁ => SLB_deleteStage c o.dryRun .statefulSet s₁)
    (by simp [stageNum]) (by simp [stageNum]) (by simp [stageNum])

theorem SLB_delete {σ : Type} (o : CommandDeInitOption) (c : Client σ) (s : σ) :
    SLB (o.delete c s).1 0 4 := by
  unfold CommandDeInitOption.delete
  have h3 : ∀ s₃ : σ, SLB (deleteStage c o.dryRun .clusterRole s₃).1 4 4 := fun s₃ =>
    SLB_deleteStage c o.dryRun .clusterRole s₃
  have h2 : ∀ s₂ : σ, SLB (andThen (deleteStage c o.dryRun .secret s₂)
      (fun s₃ => deleteStage c o.dryRun .clusterRole s₃)).1 3 4 := fun s₂ =>
    SLB_andThen (SLB_deleteStage c o.dryRun .secret s₂) h3
      (by decide) (by decide) (by decide)
  have h1 : ∀ s₁ : σ, SLB (andThen (deleteStage c o.dryRun .service s₁)
      (fun s₂ => andThen (deleteStage c o.dryRun .secret s₂)
        (fun s₃ => deleteStage c o.dryRun .clusterRole s₃))).1 2 4 := fun s₁ =>
    SLB_andThen (SLB_deleteStage c o.dryRun .service s₁) h2
      (by decide) (by decide) (by decide)
  exact SLB_andThen (SLB_deleteWorkload o c s) h1 (by decide) (by decide) (by decide)

theorem SLB_removeNodeLabels {σ : Type} (o : CommandDeInitOption) (c : Client σ) (s : σ) :
    SLB (o.removeNodeLabels c s).1 5 5 :=
  SLB_of_stage_const (fun ev h => removeNodeLabels_stageOf o c s ev h)

theorem SLB_confirm (input : List (Except String String)) (lo hi : Nat) :
    SLB (deleteConfirmation input).1 lo hi := by
  refine SLB_of_stage_none lo hi (fun ev h => ?_)
  have hp := deleteConfirmation_trace_prints input ev h
  cases ev <;> first | rfl | simp [isPrint] at hp

theorem deleteWorkload_error_delete {σ : Type} (o : CommandDeInitOption) (c : Client σ)
    (s : σ) (wtr : List Event) (e : KErr) (s' : σ)
    (h : o.deleteWorkload c s = (wtr, Except.error e, s')) :
    o.delete c s = (wtr, Except.error e, s') := by
  unfold CommandDeInitOption.delete
  rw [h]
  rfl

theorem delete_ok_workload_ok {σ : Type} (o : CommandDeInitOption) (c : Client σ) (s : σ)
    (h : (o.delete c s).2.1 = Except.ok ()) :
    (o.deleteWorkload c s).2.1 = Except.ok () := by
  rcases hw : o.deleteWorkload c s with ⟨wtr, wres, ws⟩
  cases wres with
  | error e =>
    rw [deleteWorkload_error_delete o c s wtr e ws hw] at h
    cases h
  | ok u => cases u; rfl

theorem stageOf_eq_none_of_isPrint (ev : Event) (h : isPrint ev = true) :
    stageOf ev = none := by
  cases ev <;> first | rfl | simp [isPrint] at h

theorem Run_exited {σ : Type} (o : CommandDeInitOption) (c : Client σ)
    (input : List (Except String String)) (s : σ) (ctr : List Event) (n : Nat)
    (hconf : deleteConfirmation input = (ctr, .exited n)) :
    o.Run c input s
      = (Event.print "removes Karmada from Kubernetes" :: ctr, Outcome.exited n, s) := by
  unfold CommandDeInitOption.Run
  rw [hconf]

theorem Run_declined {σ : Type} (o : CommandDeInitOption) (c : Client σ)
    (input : List (Except String String)) (s : σ) (ctr : List Event)
    (hconf : deleteConfirmation input = (ctr, .answer false)) :
    o.Run c input s
      = (Event.print "removes Karmada from Kubernetes" :: ctr, Outcome.ok, s) := by
  unfold CommandDeInitOption.Run
  rw [hconf]

theorem Run_deleteError {σ : Type} (o : CommandDeInitOption) (c : Client σ)
    (input : List (Except String String)) (s : σ) (ctr dtr : List Event) (e : KErr) (s' : σ)
    (hconf : deleteConfirmation input = (ctr, .answer true))
    (hdel : o.delete c s = (dtr, Except.error e, s')) :
    o.Run c input s
      = (Event.print "removes Karmada from Kubernetes" :: (ctr ++ dtr),
         Outcome.fail (.api e), s') := by
  unfold CommandDeInitOption.Run
  simp [hconf, hdel]

theorem Run_nodeError {σ : Type} (o : CommandDeInitOption) (c : Client σ)
    (input : List (Except String String)) (s : σ) (ctr dtr ntr : List Event) (e : KErr)
    (s' s'' : σ)
    (hconf : deleteConfirmation input = (ctr, .answer true))
    (hdel : o.delete c s = (dtr, Except.ok (), s'))
    (hnode : o.removeNodeLabels c s' = (ntr, Except.error e, s'')) :
    o.Run c input s
      = (Event.print "removes Karmada from Kubernetes" :: (ctr ++ dtr ++ ntr),
         Outcome.fail (.api e), s'') := by
  unfold CommandDeInitOption.Run
  simp [hconf, hdel, hnode]

theorem Run_ok {σ : Type} (o : CommandDeInitOption) (c : Client σ)
    (input : List (Except String String)) (s : σ) (ctr dtr ntr : List Event) (s' s'' : σ)
    (hconf : deleteConfirmation input = (ctr, .answer true))
    (hdel : o.delete c s = (dtr, Except.ok (), s'))
    (hnode : o.removeNodeLabels c s' = (ntr, Except.ok (), s'')) :
    o.Run c input s
      = (Event.print "removes Karmada from Kubernetes"
           :: (ctr ++ dtr ++ ntr ++ [Event.print successMsg]),
         Outcome.ok, s'') := by
  unfold CommandDeInitOption.Run
  simp [hconf, hdel, hnode]

theorem SLB_Run {σ : Type} (o : CommandDeInitOption) (c : Client σ)
    (input : List (Except String String)) (s : σ) : SLB (o.Run c input s).1 0 5 := by
  rcases hconf : deleteConfirmation input with ⟨ctr, co⟩
  have hctr : SLB ctr 0 0 := by
    have h := SLB_confirm input 0 0
    rw [hconf] at h
    exact h
  cases co with
  | exited n =>
    rw [Run_exited o c input s ctr n hconf]
    exact SLB_cons_print _ (SLB_weaken (le_refl 0) (by omega) hctr)
  | answer b =>
    cases b with
    | false =>
      rw [Run_declined o c input s ctr hconf]
      exact SLB_cons_print _ (SLB_weaken (le_refl 0) (by omega) hctr)
    | true =>
      rcases hdel : o.delete c s with ⟨dtr, dres, s'⟩
      have hd : SLB dtr 0 4 := by
        have h := SLB_delete o c s
        rw [hdel] at h
        exact h
      have hcd : SLB (ctr ++ dtr) 0 4 :=
        SLB_append hctr hd (by omega) (by omega) (by omega)
      cases dres with
      | error e =>
        rw [Run_deleteError o c input s ctr dtr e s' hconf hdel]
        exact SLB_cons_print _ (SLB_weaken (le_refl 0) (by omega) hcd)
      | ok u =>
        cases u
        rcases hnode : o.removeNodeLabels c s' with ⟨ntr, nres, s''⟩
        have hn : SLB ntr 5 5 := by
          have h := SLB_removeNodeLabels o c s'
          rw [hnode] at h
          exact h
        have hcdn : SLB (ctr ++ dtr ++ ntr) 0 5 :=
          SLB_append hcd hn (by omega) (by omega) (by omega)
        cases nres with
        | error e =>
          rw [Run_nodeError o c input s ctr dtr ntr e s' s'' hconf hdel hnode]
          exact SLB_cons_print _ hcdn
        | ok u =>
          cases u
          rw [Run_ok o c input s ctr dtr ntr s' s'' hconf hdel hnode]
          have hs : SLB [Event.print successMsg] 5 5 :=
            SLB_of_stage_none 5 5 (by intro ev h; simp at h; simp [h, stageOf])
          exact SLB_cons_print _
            (SLB_append hcdn hs (by omega) (by omega) (by omega))

theorem andThen_fst_ok {σ : Type} (a : List Event × Except KErr Unit × σ)
    (f : σ → List Event × Except KErr Unit × σ)
    (h : (andThen a f).2.1 = Except.ok ()) : a.2.1 = Except.ok () := by
  rcases a with ⟨tr, res, s⟩
  cases res with
  | ok u => cases u; rfl
  | error e => simp [andThen] at h

theorem andThen_ok_out {σ : Type} (a : List Event × Except KErr Unit × σ)
    (f : σ → List Event × Except KErr Unit × σ) (h : a.2.1 = Except.ok ()) :
    (andThen a f).2.1 = (f a.2.2).2.1 := by
  rcases a with ⟨tr, res, s⟩
  cases res with
  | ok u => cases u; rfl
  | error e => cases h

theorem workload_ok_dep_ok {σ : Type} (o : CommandDeInitOption) (c : Client σ) (s : σ)
    (h : (o.deleteWorkload c s).2.1 = Except.ok ()) :
    (deleteStage c o.dryRun .deployment s).2.1 = Except.ok () := by
  rcases hd : deleteStage c o.dryRun .deployment s with ⟨dtr, dres, ds⟩
  cases dres with
  | ok u => cases u; rfl
  | error e =>
    have hW : o.deleteWorkload c s = (dtr, Except.error e, ds) := by
      unfold CommandDeInitOption.deleteWorkload
      rw [hd]
      rfl
    rw [hW] at h
    cases h

theorem delete_ok_deployment_ok {σ : Type} (o : CommandDeInitOption) (c : Client σ)
    (s : σ) (h : (o.delete c s).2.1 = Except.ok ()) :
    (deleteStage c o.dryRun .deployment s).2.1 = Except.ok () :=
  workload_ok_dep_ok o c s (delete_ok_workload_ok o c s h)

theorem delete_ok_service_ok {σ : Type} (o : CommandDeInitOption) (c : Client σ) (s : σ)
    (h : (o.delete c s).2.1 = Except.ok ()) :
    (deleteStage c o.dryRun .service (o.deleteWorkload c s).2.2).2.1 = Except.ok () := by
  rcases hw : o.deleteWorkload c s with ⟨wtr, wres, ws⟩
  cases wres with
  | error e =>
    rw [deleteWorkload_error_delete o c s wtr e ws hw] at h
    cases h
  | ok u =>
    cases u
    show (deleteStage c o.dryRun .service ws).2.1 = Except.ok ()
    have hDeq : (o.delete c s).2.1
        = (andThen (deleteStage c o.dryRun .service ws)
            (fun s₂ => andThen (deleteStage c o.dryRun .secret s₂)
              (fun s₃ => deleteStage c o.dryRun .clusterRole s₃))).2.1 := by
      unfold CommandDeInitOption.delete
      rw [hw]
      rfl
    rw [hDeq] at h
    exact andThen_fst_ok _ _ h

theorem delete_ok_secret_ok {σ : Type} (o : CommandDeInitOption) (c : Client σ) (s : σ)
    (h : (o.delete c s).2.1 = Except.ok ()) :
    (deleteStage c o.dryRun .secret
      (deleteStage c o.dryRun .service (o.deleteWorkload c s).2.2).2.2).2.1
      = Except.ok () := by
  rcases hw : o.deleteWorkload c s with ⟨wtr, wres, ws⟩
  cases wres with
  | error e =>
    rw [deleteWorkload_error_delete o c s wtr e ws hw] at h
    cases h
  | ok u =>
    cases u
    show (deleteStage c o.dryRun .secret
      (deleteStage c o.dryRun .service ws).2.2).2.1 = Except.ok ()
    have hDeq : (o.delete c s).2.1
        = (andThen (deleteStage c o.dryRun .service ws)
            (fun s₂ => andThen (deleteStage c o.dryRun .secret s₂)
              (fun s₃ => deleteStage c o.dryRun .clusterRole s₃))).2.1 := by
      unfold CommandDeInitOption.delete
      rw [hw]
      rfl
    rw [hDeq] at h
    rcases hsvc : deleteStage c o.dryRun .service ws with ⟨str, sres, ss⟩
    cases sres with
    | error e =>
      rw [hsvc] at h
      simp [andThen] at h
    | ok u =>
      cases u
      show (deleteStage c o.dryRun .secret ss).2.1 = Except.ok ()
      rw [hsvc] at h
      have h2 := andThen_ok_out (str, Except.ok (), ss)
        (fun s₂ => andThen (deleteStage c o.dryRun .secret s₂)
          (fun s₃ => deleteStage c o.dryRun .clusterRole s₃)) rfl
      rw [h2] at h
      exact andThen_fst_ok _ _ h

theorem delete_event_dep_ok {σ : Type} (o : CommandDeInitOption) (c : Client σ) (s : σ)
    (ev : Event) (m : Nat) (hev : ev ∈ (o.delete c s).1) (hst : stageOf ev = some m)
    (hm : 1 ≤ m) : (deleteStage c o.dryRun .deployment s).2.1 = Except.ok () := by
  rcases hd : deleteStage c o.dryRun .deployment s with ⟨dtr, dres, ds⟩
  cases dres with
  | ok u => cases u; rfl
  | error e =>
    have hW : o.deleteWorkload c s = (dtr, Except.error e, ds) := by
      unfold CommandDeInitOption.deleteWorkload
      rw [hd]
      rfl
    rw [deleteWorkload_error_delete o c s dtr e ds hW] at hev
    rcases deleteStage_stageOf c o.dryRun .deployment s ev (by rw [hd]; exact hev)
      with h | h <;> rw [h] at hst
    · cases hst
    · injection hst with h2
      simp [stageNum] at h2
      omega

theorem delete_event_workload_ok {σ : Type} (o : CommandDeInitOption) (c : Client σ)
    (s : σ) (ev : Event) (m : Nat) (hev : ev ∈ (o.delete c s).1)
    (hst : stageOf ev = some m) (hm : 2 ≤ m) :
    (o.deleteWorkload c s).2.1 = Except.ok () := by
  rcases hw : o.deleteWorkload c s with ⟨wtr, wres, ws⟩
  cases wres with
  | ok u => cases u; rfl
  | error e =>
    rw [deleteWorkload_error_delete o c s wtr e ws hw] at hev
    rcases deleteWorkload_stageOf o c s ev (by rw [hw]; exact hev)
      with h | h | h <;> rw [h] at hst
    · cases hst
    · injection hst with h2; omega
    · injection hst with h2; omega

theorem delete_event_service_ok {σ : Type} (o : CommandDeInitOption) (c : Client σ)
    (s : σ) (ev : Event) (m : Nat) (hev : ev ∈ (o.delete c s).1)
    (hst : stageOf ev = some m) (hm : 3 ≤ m) :
    (deleteStage c o.dryRun .service (o.deleteWorkload c s).2.2).2.1 = Except.ok () := by
  rcases hw : o.deleteWorkload c s with ⟨wtr, wres, ws⟩
  cases wres with
  | error e =>
    rw [deleteWorkload_error_delete o c s wtr e ws hw] at hev
    rcases deleteWorkload_stageOf o c s ev (by rw [hw]; exact hev)
      with h | h | h <;> rw [h] at hst
    · cases hst
    · injection hst with h2; omega
    · injection hst with h2; omega
  | ok u =>
    cases u
    show (deleteStage c o.dryRun .service ws).2.1 = Except.ok ()
    have hDeq : o.delete c s
        = (wtr ++ (andThen (deleteStage c o.dryRun .service ws)
            (fun s₂ => andThen (deleteStage c o.dryRun .secret s₂)
              (fun s₃ => deleteStage c o.dryRun .clusterRole s₃))).1,
           (andThen (deleteStage c o.dryRun .service ws)
            (fun s₂ => andThen (deleteStage c o.dryRun .secret s₂)
              (fun s₃ => deleteStage c o.dryRun .clusterRole s₃))).2.1,
           (andThen (deleteStage c o.dryRun .service ws)
            (fun s₂ => andThen (deleteStage c o.dryRun .secret s₂)
              (fun s₃ => deleteStage c o.dryRun .clusterRole s₃))).2.2) := by
      unfold CommandDeInitOption.delete
      rw [hw]
      rfl
    rcases hsvc : deleteStage c o.dryRun .service ws with ⟨str, sres, ss⟩
    cases sres with
    | ok u => cases u; rfl
    | error e =>
      rw [hDeq, hsvc] at hev
      have hchain : (andThen (str, Except.error e, ss)
          (fun s₂ => andThen (deleteStage c o.dryRun .secret s₂)
            (fun s₃ => deleteStage c o.dryRun .clusterRole s₃))).1 = str := rfl
      rw [hchain] at hev
      dsimp only at hev
      rcases List.mem_append.mp hev with h | h
      · rcases deleteWorkload_stageOf o c s ev (by rw [hw]; exact h)
          with hh | hh | hh <;> rw [hh] at hst
        · cases hst
        · injection hst with h2; omega
        · injection hst with h2; omega
      · rcases deleteStage_stageOf c o.dryRun .service ws ev (by rw [hsvc]; exact h)
          with hh | hh <;> rw [hh] at hst
        · cases hst
        · injection hst with h2
          simp [stageNum] at h2
          omega

theorem delete_event_secret_ok {σ : Type} (o : CommandDeInitOption) (c : Client σ)
    (s : σ) (ev : Event) (m : Nat) (hev : ev ∈ (o.delete c s).1)
    (hst : stageOf ev = some m) (hm : 4 ≤ m) :
    (deleteStage c o.dryRun .secret
      (deleteStage c o.dryRun .service (o.deleteWorkload c s).2.2).2.2).2.1
      = Except.ok () := by
  rcases hw : o.deleteWorkload c s with ⟨wtr, wres, ws⟩
  cases wres with
  | error e =>
    rw [deleteWorkload_error_delete o c s wtr e ws hw] at hev
    rcases deleteWorkload_stageOf o c s ev (by rw [hw]; exact hev)
      with h | h | h <;> rw [h] at hst
    · cases hst
    · injection hst with h2; omega
    · injection hst with h2; omega
  | ok u =>
    cases u
    show (deleteStage c o.dryRun .secret
      (deleteStage c o.dryRun .service ws).2.2).2.1 = Except.ok ()
    have hDeq : o.delete c s
        = (wtr ++ (andThen (deleteStage c o.dryRun .service ws)
            (fun s₂ => andThen (deleteStage c o.dryRun .secret s₂)
              (fun s₃ => deleteStage c o.dryRun .clusterRole s₃))).1,
           (andThen (deleteStage c o.dryRun .service ws)
            (fun s₂ => andThen (deleteStage c o.dryRun .secret s₂)
              (fun s₃ => deleteStage c o.dryRun .clusterRole s₃))).2.1,
           (andThen (deleteStage c o.dryRun .service ws)
            (fun s₂ => andThen (deleteStage c o.dryRun .secret s₂)
              (fun s₃ => deleteStage c o.dryRun .clusterRole s₃))).2.2) := by
      unfold CommandDeInitOption.delete
      rw [hw]
      rfl
    rcases hsvc : deleteStage c o.dryRun .service ws with ⟨str, sres, ss⟩
    cases sres with
    | error e =>
      rw [hDeq, hsvc] at hev
      have hchain : (andThen (str, Except.error e, ss)
          (fun s₂ => andThen (deleteStage c o.dryRun .secret s₂)
            (fun s₃ => deleteStage c o.dryRun .clusterRole s₃))).1 = str := rfl
      rw [hchain] at hev
      dsimp only at hev
      rcases List.mem_append.mp hev with h | h
      · rcases deleteWorkload_stageOf o c s ev (by rw [hw]; exact h)
          with hh | hh | hh <;> rw [hh] at hst
        · cases hst
        · injection hst with h2; omega
        · injection hst with h2; omega
      · rcases deleteStage_stageOf c o.dryRun .service ws ev (by rw [hsvc]; exact h)
          with hh | hh <;> rw [hh] at hst
        · cases hst
        · injection hst with h2
          simp [stageNum] at h2
          omega
    | ok u =>
      cases u
      show (deleteStage c o.dryRun .secret ss).2.1 = Except.ok ()
      rcases hsec : deleteStage c o.dryRun .secret ss with ⟨setr, secres, ss₂⟩
      cases secres with
      | ok u => cases u; rfl
      | error e =>
        rw [hDeq, hsvc] at hev
        have hchain : (andThen (str, Except.ok (), ss)
            (fun s₂ => andThen (deleteStage c o.dryRun .secret s₂)
              (fun s₃ => deleteStage c o.dryRun .clusterRole s₃))).1
            = str ++ (andThen (deleteStage c o.dryRun .secret ss)
                (fun s₃ => deleteStage c o.dryRun .clusterRole s₃)).1 := rfl
        rw [hchain] at hev
        have hchain2 : (andThen (setr, Except.error e, ss₂)
            (fun s₃ => deleteStage c o.dryRun .clusterRole s₃)).1 = setr := rfl
        rw [hsec, hchain2] at hev
        dsimp only at hev
        rcases List.mem_append.mp hev with h | h
        · rcases deleteWorkload_stageOf o c s ev (by rw [hw]; exact h)
            with hh | hh | hh <;> rw [hh] at hst
          · cases hst
          · injection hst with h2; omega
          · injection hst with h2; omega
        rcases List.mem_append.mp h with h | h
        · rcases deleteStage_stageOf c o.dryRun .service ws ev (by rw [hsvc]; exact h)
            with hh | hh <;> rw [hh] at hst
          · cases hst
          · injection hst with h2
            simp [stageNum] at h2
            omega
        · rcases deleteStage_stageOf c o.dryRun .secret ss ev (by rw [hsec]; exact h)
            with hh | hh <;> rw [hh] at hst
          · cases hst
          · injection hst with h2
            simp [stageNum] at h2
            omega

theorem Run_event_elim {σ : Type} (o : CommandDeInitOption) (c : Client σ)
    (input : List (Except String String)) (s : σ) (ev : Event) (m : Nat)
    (hev : ev ∈ (o.Run c input s).1) (hst : stageOf ev = some m) (P : Prop)
    (h1 : ev ∈ (o.delete c s).1 → P)
    (h2 : (o.delete c s).2.1 = Except.ok () → P) : P := by
  rcases hconf : deleteConfirmation input with ⟨ctr, co⟩
  have hctrpr : ∀ x ∈ ctr, isPrint x = true := by
    intro x hx
    have hp := deleteConfirmation_trace_prints input x
    rw [hconf] at hp
    exact hp hx
  cases co with
  | exited n =>
    rw [Run_exited o c input s ctr n hconf] at hev
    rcases List.mem_cons.mp hev with hev | hev
    · rw [hev] at hst; cases hst
    · rw [stageOf_eq_none_of_isPrint ev (hctrpr ev hev)] at hst; cases hst
  | answer b =>
    cases b with
    | false =>
      rw [Run_declined o c input s ctr hconf] at hev
      rcases List.mem_cons.mp hev with hev | hev
      · rw [hev] at hst; cases hst
      · rw [stageOf_eq_none_of_isPrint ev (hctrpr ev hev)] at hst; cases hst
    | true =>
      rcases hdel : o.delete c s with ⟨dtr, dres, s1⟩
      cases dres with
      | error e =>
        rw [Run_deleteError o c input s ctr dtr e s1 hconf hdel] at hev
        rcases List.mem_cons.mp hev with hev | hev
        · rw [hev] at hst; cases hst
        rcases List.mem_append.mp hev with hev | hev
        · rw [stageOf_eq_none_of_isPrint ev (hctrpr ev hev)] at hst; cases hst
        · exact h1 (by rw [hdel]; exact hev)
      | ok u =>
        cases u
        exact h2 (by rw [hdel])

/-- C2: the stages run in the fixed order Deployments (0), StatefulSets
(1), Services (2), Secrets (3), ClusterRoles (4), then node-label
stripping (5): the stage indices along any run's trace are
non-decreasing, and every stage boundary is a fail-fast barrier — any
event of stage 1 or later implies the Deployment stage completed
successfully, stage 2 or later implies the whole workload pass
(`deleteWorkload`) did, stage 3 or later implies the Service stage did,
stage 4 or later implies the Secret stage did, and any node-stage event
implies the entire `delete` sequence did — so a fatal error in any
stage leaves no trace of that stage's successors. -/
theorem spec_C2 (σ : Type) (o : CommandDeInitOption) (c : Client σ)
    (input : List (Except String String)) (s : σ) :
    (levels (o.Run c input s).1).Pairwise (· ≤ ·) ∧
    ((∃ ev ∈ (o.Run c input s).1, ∃ m, stageOf ev = some m ∧ 1 ≤ m) →
      (deleteStage c o.dryRun .deployment s).2.1 = Except.ok ()) ∧
    ((∃ ev ∈ (o.Run c input s).1, ∃ m, stageOf ev = some m ∧ 2 ≤ m) →
      (o.deleteWorkload c s).2.1 = Except.ok ()) ∧
    ((∃ ev ∈ (o.Run c input s).1, ∃ m, stageOf ev = some m ∧ 3 ≤ m) →
      (deleteStage c o.dryRun .service (o.deleteWorkload c s).2.2).2.1
        = Except.ok ()) ∧
    ((∃ ev ∈ (o.Run c input s).1, ∃ m, stageOf ev = some m ∧ 4 ≤ m) →
      (deleteStage c o.dryRun .secret
        (deleteStage c o.dryRun .service (o.deleteWorkload c s).2.2).2.2).2.1
        = Except.ok ()) ∧
    ((∃ ev ∈ (o.Run c input s).1, stageOf ev = some 5) →
      (o.delete c s).2.1 = Except.ok ()) := by
  refine ⟨(SLB_Run o c input s).1, ?_, ?_, ?_, ?_, ?_⟩
  · rintro ⟨ev, hev, m, hst, hm⟩
    exact Run_event_elim o c input s ev m hev hst _
      (fun h => delete_event_dep_ok o c s ev m h hst hm)
      (fun h => delete_ok_deployment_ok o c s h)
  · rintro ⟨ev, hev, m, hst, hm⟩
    exact Run_event_elim o c input s ev m hev hst _
      (fun h => delete_event_workload_ok o c s ev m h hst hm)
      (fun h => delete_ok_workload_ok o c s h)
  · rintro ⟨ev, hev, m, hst, hm⟩
    exact Run_event_elim o c input s ev m hev hst _
      (fun h => delete_event_service_ok o c s ev m h hst hm)
      (fun h => delete_ok_service_ok o c s h)
  · rintro ⟨ev, hev, m, hst, hm⟩
    exact Run_event_elim o c input s ev m hev hst _
      (fun h => delete_event_secret_ok o c s ev m h hst hm)
      (fun h => delete_ok_secret_ok o c s h)
  · rintro ⟨ev, hev, hst⟩
    refine Run_event_elim o c input s ev 5 hev hst _ (fun h => ?_) (fun h => h)
    rcases delete_stageOf o c s ev h with h1 | ⟨m2, h1, h2⟩
    · rw [h1] at hst; cases hst
    · rw [h1] at hst
      injection hst with h3
      omega

theorem isMutation_eq_false_of_isPrint (ev : Event) (h : isPrint ev = true) :
    isMutation ev = false := by
  cases ev <;> first | rfl | simp [isPrint] at h

theorem retireLoop_dry_no_mutation {σ : Type} (c : Client σ) (k : Kind)
    (xs : List KObj) (s : σ) :
    ∀ ev ∈ (retireLoop c true k xs s).1, isMutation ev = false := by
  rw [retireLoop_dry]
  intro ev h
  rcases List.mem_map.mp h with ⟨x, _, hx⟩
  rw [← hx]
  rfl

theorem deleteStage_dry_no_mutation {σ : Type} (c : Client σ) (k : Kind) (s : σ) :
    ∀ ev ∈ (deleteStage c true k s).1, isMutation ev = false := by
  intro ev h
  rcases hl : c.listObjs k s with ⟨res, s'⟩
  cases res with
  | error e =>
    simp only [deleteStage, hl] at h
    simp at h
    rw [h]
    rfl
  | ok items =>
    simp only [deleteStage, hl, List.mem_cons] at h
    rcases h with h | h
    · rw [h]; rfl
    · exact retireLoop_dry_no_mutation c k items s' ev h

theorem delete_dry_no_mutation {σ : Type} (o : CommandDeInitOption) (c : Client σ) (s : σ)
    (hdry : o.dryRun = true) :
    ∀ ev ∈ (o.delete c s).1, isMutation ev = false := by
  intro ev h
  unfold CommandDeInitOption.delete CommandDeInitOption.deleteWorkload at h
  rw [hdry] at h
  rcases andThen_mem _ _ _ h with h1 | h1
  · rcases andThen_mem _ _ _ h1 with h2 | h2
    · exact deleteStage_dry_no_mutation c .deployment s ev h2
    · exact deleteStage_dry_no_mutation c .statefulSet _ ev h2
  · rcases andThen_mem _ _ _ h1 with h2 | h2
    · exact deleteStage_dry_no_mutation c .service _ ev h2
    · rcases andThen_mem _ _ _ h2 with h3 | h3
      · exact deleteStage_dry_no_mutation c .secret _ ev h3
      · exact deleteStage_dry_no_mutation c .clusterRole _ ev h3

theorem nodeLoop_dry_no_mutation {σ : Type} (c : Client σ) (ns : List KNode) (s : σ) :
    ∀ ev ∈ (nodeLoop c true ns s).1, isMutation ev = false := by
  rw [nodeLoop_dry]
  intro ev h
  rcases List.mem_map.mp h with ⟨n, _, hn⟩
  rw [← hn]
  rfl

theorem removeNodeLabels_dry_no_mutation {σ : Type} (o : CommandDeInitOption)
    (c : Client σ) (s : σ) (hdry : o.dryRun = true) :
    ∀ ev ∈ (o.removeNodeLabels c s).1, isMutation ev = false := by
  intro ev h
  rcases hl : c.listNodes s with ⟨res, s'⟩
  cases res with
  | error e =>
    simp only [CommandDeInitOption.removeNodeLabels, hl] at h
    simp at h
    rw [h]
    rfl
  | ok nodes =>
    simp only [CommandDeInitOption.removeNodeLabels, hl] at h
    by_cases h0 : (nodes.length == 0) = true
    · simp only [h0, if_true] at h
      simp at h
      rcases h with h | h <;> rw [h] <;> rfl
    · simp only [Bool.not_eq_true] at h0
      simp only [h0, Bool.false_eq_true, if_false, List.mem_cons] at h
      rcases h with h | h
      · rw [h]; rfl
      · rw [hdry] at h
        exact nodeLoop_dry_no_mutation c nodes s' ev h

theorem Run_mem {σ : Type} (o : CommandDeInitOption) (c : Client σ)
    (input : List (Except String String)) (s : σ) (ev : Event)
    (h : ev ∈ (o.Run c input s).1) :
    isPrint ev = true ∨ ev ∈ (o.delete c s).1 ∨
      ev ∈ (o.removeNodeLabels c (o.delete c s).2.2).1 := by
  rcases hconf : deleteConfirmation input with ⟨ctr, co⟩
  have hctrpr : ∀ e ∈ ctr, isPrint e = true := by
    intro e he
    have hp := deleteConfirmation_trace_prints input e
    rw [hconf] at hp
    exact hp he
  cases co with
  | exited n =>
    rw [Run_exited o c input s ctr n hconf] at h
    rcases List.mem_cons.mp h with h | h
    · left; rw [h]; rfl
    · exact Or.inl (hctrpr ev h)
  | answer b =>
    cases b with
    | false =>
      rw [Run_declined o c input s ctr hconf] at h
      rcases List.mem_cons.mp h with h | h
      · left; rw [h]; rfl
      · exact Or.inl (hctrpr ev h)
    | true =>
      rcases hdel : o.delete c s with ⟨dtr, dres, s'⟩
      cases dres with
      | error e =>
        rw [Run_deleteError o c input s ctr dtr e s' hconf hdel] at h
        rcases List.mem_cons.mp h with h | h
        · left; rw [h]; rfl
        rcases List.mem_append.mp h with h | h
        · exact Or.inl (hctrpr ev h)
        · right; left; exact h
      | ok u =>
        cases u
        rcases hnode : o.removeNodeLabels c s' with ⟨ntr, nres, s''⟩
        cases nres with
        | error e =>
          rw [Run_nodeError o c input s ctr dtr ntr e s' s'' hconf hdel hnode] at h
          rcases List.mem_cons.mp h with h | h
          · left; rw [h]; rfl
          rcases List.mem_append.mp h with h | h
          rcases List.mem_append.mp h with h | h
          · exact Or.inl (hctrpr ev h)
          · right; left; exact h
          · right; right
            exact h
        | ok u =>
          cases u
          rw [Run_ok o c input s ctr dtr ntr s' s'' hconf hdel hnode] at h
          rcases List.mem_cons.mp h with h | h
          · left; rw [h]; rfl
          rcases List.mem_append.mp h with h | h
          rcases List.mem_append.mp h with h | h
          rcases List.mem_append.mp h with h | h
          · exact Or.inl (hctrpr ev h)
          · right; left; exact h
          · right; right
            exact h
          · left
            have : ev = Event.print successMsg := by simpa using h
            rw [this]
            rfl

theorem deleteStage_oracle_dry (lists : Kind → Except KErr (List KObj))
    (dels : Kind → String → Except KErr Unit) (nodesL : Except KErr (List KNode))
    (upd : KNode → Except KErr Unit) (k : Kind) (l : List KObj)
    (hk : lists k = Except.ok l) :
    deleteStage (oracleClient lists dels nodesL upd) true k ()
      = (Event.listCall k :: l.map (fun x => Event.print (printMsg k x.name)),
         Except.ok (), ()) := by
  simp only [deleteStage, oracleClient, hk, retireLoop_dry]

theorem mem_dryStageTrace (items : Kind → List KObj) (k : Kind) (x : KObj)
    (hx : x ∈ items k) :
    Event.print (printMsg k x.name) ∈ dryStageTrace items k :=
  List.mem_cons_of_mem _
    (List.mem_map_of_mem (fun y => Event.print (printMsg k y.name)) hx)

theorem delete_oracle_dry (o : CommandDeInitOption)
    (lists : Kind → Except KErr (List KObj)) (dels : Kind → String → Except KErr Unit)
    (nodesL : Except KErr (List KNode)) (upd : KNode → Except KErr Unit)
    (items : Kind → List KObj) (hdry : o.dryRun = true)
    (hl : ∀ k, lists k = Except.ok (items k)) :
    o.delete (oracleClient lists dels nodesL upd) ()
      = ((dryStageTrace items .deployment ++ dryStageTrace items .statefulSet) ++
          (dryStageTrace items .service ++
            (dryStageTrace items .secret ++ dryStageTrace items .clusterRole)),
         Except.ok (), ()) := by
  have h1 := deleteStage_oracle_dry lists dels nodesL upd .deployment _ (hl .deployment)
  have h2 := deleteStage_oracle_dry lists dels nodesL upd .statefulSet _ (hl .statefulSet)
  have h3 := deleteStage_oracle_dry lists dels nodesL upd .service _ (hl .service)
  have h4 := deleteStage_oracle_dry lists dels nodesL upd .secret _ (hl .secret)
  have h5 := deleteStage_oracle_dry lists dels nodesL upd .clusterRole _ (hl .clusterRole)
  unfold CommandDeInitOption.delete CommandDeInitOption.deleteWorkload
  rw [hdry]
  simp only [h1, h2, h3, h4, h5, andThen_ok, dryStageTrace]

theorem removeNodeLabels_oracle_dry (o : CommandDeInitOption)
    (lists : Kind → Except KErr (List KObj)) (dels : Kind → String → Except KErr Unit)
    (nodesL : Except KErr (List KNode)) (upd : KNode → Except KErr Unit)
    (nds : List KNode) (hdry : o.dryRun = true) (hn : nodesL = Except.ok nds) :
    o.removeNodeLabels (oracleClient lists dels nodesL upd) ()
      = ((if nds.length == 0 then [Event.listNodesCall, Event.print nodeNotFoundMsg]
          else Event.listNodesCall :: nds.map (fun n => Event.print (nodeRemoveMsg n.name))),
         Except.ok (), ()) := by
  unfold CommandDeInitOption.removeNodeLabels
  simp only [oracleClient, hn]
  by_cases h0 : (nds.length == 0) = true
  · simp [h0]
  · simp only [Bool.not_eq_true] at h0
    simp [h0, hdry, nodeLoop_dry]

/-- C3: dry-run purity.  First, with the dry-run flag set no run of the
command, on any client and any input, ever issues a delete or a
node-update call.  Second, on a stateless oracle client whose list calls
all succeed, a confirmed dry run still prints the per-object notice of
every matched object of every kind and of every matched node. -/
theorem spec_C3 :
    (∀ (σ : Type) (o : CommandDeInitOption) (c : Client σ)
      (input : List (Except String String)) (s : σ), o.dryRun = true →
      ∀ ev ∈ (o.Run c input s).1, isMutation ev = false) ∧
    (∀ (o : CommandDeInitOption) (lists : Kind → Except KErr (List KObj))
      (dels : Kind → String → Except KErr Unit) (nodesL : Except KErr (List KNode))
      (upd : KNode → Except KErr Unit) (items : Kind → List KObj) (nds : List KNode)
      (input : List (Except String String)) (ctr : List Event),
      o.dryRun = true →
      (∀ k, lists k = Except.ok (items k)) →
      nodesL = Except.ok nds →
      deleteConfirmation input = (ctr, .answer true) →
      (∀ (k : Kind), ∀ x ∈ items k, Event.print (printMsg k x.name)
          ∈ (o.Run (oracleClient lists dels nodesL upd) input ()).1) ∧
      (∀ n ∈ nds, Event.print (nodeRemoveMsg n.name)
          ∈ (o.Run (oracleClient lists dels nodesL upd) input ()).1)) := by
  constructor
  · intro σ o c input s hdry ev hev
    rcases Run_mem o c input s ev hev with h | h | h
    · exact isMutation_eq_false_of_isPrint ev h
    · exact delete_dry_no_mutation o c s hdry ev h
    · exact removeNodeLabels_dry_no_mutation o c _ hdry ev h
  · intro o lists dels nodesL upd items nds input ctr hdry hl hn hconf
    have hdel := delete_oracle_dry o lists dels nodesL upd items hdry hl
    have hnode := removeNodeLabels_oracle_dry o lists dels nodesL upd nds hdry hn
    rw [Run_ok o (oracleClient lists dels nodesL upd) input () ctr _ _ () ()
      hconf hdel hnode]
    constructor
    · intro k x hx
      apply List.mem_cons_of_mem
      apply List.mem_append_left
      apply List.mem_append_left
      apply List.mem_append_right
      have hmem := mem_dryStageTrace items k x hx
      cases k with
      | deployment => exact List.mem_append_left _ (List.mem_append_left _ hmem)
      | statefulSet => exact List.mem_append_left _ (List.mem_append_right _ hmem)
      | service => exact List.mem_append_right _ (List.mem_append_left _ hmem)
      | secret =>
        exact List.mem_append_right _ (List.mem_append_right _ (List.mem_append_left _ hmem))
      | clusterRole =>
        exact List.mem_append_right _ (List.mem_append_right _ (List.mem_append_right _ hmem))
    · intro n hn'
      apply List.mem_cons_of_mem
      apply List.mem_append_left
      apply List.mem_append_right
      cases nds with
      | nil => cases hn'
      | cons a l =>
        have h0 : ((a :: l).length == 0) = false := by simp
        simp only [h0, Bool.false_eq_true, if_false, List.mem_cons, List.mem_map]
        right
        exact ⟨n, List.mem_cons.mp hn', rfl⟩

/-- Witness for C3 at a concrete confirmed dry run with one object per
kind and one labelled node: no mutation event, and the notices for the
deployment object and for the node are in the trace. -/
theorem spec_C3_witness :
    isMutation (Event.listCall .deployment) = false ∧
    Event.print (printMsg .deployment "obj")
      ∈ (demoOptDry.Run dryClient [Except.ok "y"] ()).1 ∧
    Event.print (nodeRemoveMsg "node1")
      ∈ (demoOptDry.Run dryClient [Except.ok "y"] ()).1 :=
  ⟨spec_C3.1 Unit demoOptDry dryClient [Except.ok "y"] () rfl
      (Event.listCall .deployment) (by decide),
   (spec_C3.2 demoOptDry dryLists (fun _ _ => Except.ok ()) (Except.ok dryNodes)
      (fun _ => Except.ok ()) dryItems dryNodes [Except.ok "y"]
      [Event.print promptMsg] rfl (fun _ => rfl) rfl (by decide)).1
      .deployment ⟨"obj", []⟩ (by decide),
   (spec_C3.2 demoOptDry dryLists (fun _ _ => Except.ok ()) (Except.ok dryNodes)
      (fun _ => Except.ok ()) dryItems dryNodes [Except.ok "y"]
      [Event.print promptMsg] rfl (fun _ => rfl) rfl (by decide)).2
      ⟨"node1", [("karmada.io/etcd", "")]⟩ (by decide)⟩

/-- Witness for C2 at a concrete all-success run: the stage levels of
the trace are sorted, and the trace's StatefulSet, Service, Secret,
ClusterRole and node-stage events certify that each earlier stage —
Deployment, the workload pass, Service, Secret, and the whole delete
sequence — completed successfully. -/
theorem spec_C2_witness :
    (levels ((demoOpt.Run okClient [Except.ok "y"] ()).1)).Pairwise (· ≤ ·) ∧
    (deleteStage okClient demoOpt.dryRun .deployment ()).2.1 = Except.ok () ∧
    (demoOpt.deleteWorkload okClient ()).2.1 = Except.ok () ∧
    (deleteStage okClient demoOpt.dryRun .service
      (demoOpt.deleteWorkload okClient ()).2.2).2.1 = Except.ok () ∧
    (deleteStage okClient demoOpt.dryRun .secret
      (deleteStage okClient demoOpt.dryRun .service
        (demoOpt.deleteWorkload okClient ()).2.2).2.2).2.1 = Except.ok () ∧
    (demoOpt.delete okClient ()).2.1 = Except.ok () :=
  ⟨(spec_C2 Unit demoOpt okClient [Except.ok "y"] ()).1,
   (spec_C2 Unit demoOpt okClient [Except.ok "y"] ()).2.1
     ⟨Event.listCall .statefulSet, by decide, 1, by decide, by decide⟩,
   (spec_C2 Unit demoOpt okClient [Except.ok "y"] ()).2.2.1
     ⟨Event.listCall .service, by decide, 2, by decide, by decide⟩,
   (spec_C2 Unit demoOpt okClient [Except.ok "y"] ()).2.2.2.1
     ⟨Event.listCall .secret, by decide, 3, by decide, by decide⟩,
   (spec_C2 Unit demoOpt okClient [Except.ok "y"] ()).2.2.2.2.1
     ⟨Event.listCall .clusterRole, by decide, 4, by decide, by decide⟩,
   (spec_C2 Unit demoOpt okClient [Except.ok "y"] ()).2.2.2.2.2
     ⟨Event.listNodesCall, by decide, by decide⟩⟩

/-- C5: a negative confirmation makes `Run` return success immediately:
the client state is untouched and every event of the trace is a printed
line — no discovery, deletion or update call is issued. -/
theorem spec_C5 (σ : Type) (o : CommandDeInitOption) (c : Client σ)
    (input : List (Except String String)) (s : σ) (ctr : List Event)
    (hconf : deleteConfirmation input = (ctr, .answer false)) :
    (o.Run c input s).2.1 = Outcome.ok ∧ (o.Run c input s).2.2 = s ∧
    ∀ ev ∈ (o.Run c input s).1, isPrint ev = true := by
  rw [Run_declined o c input s ctr hconf]
  refine ⟨rfl, rfl, fun ev hev => ?_⟩
  rcases List.mem_cons.mp hev with hev | hev
  · rw [hev]; rfl
  · have h := deleteConfirmation_trace_prints input ev
    rw [hconf] at h
    exact h hev

/-- Witness for C5: answering `n` on a concrete client returns success
with the state unchanged. -/
theorem spec_C5_witness :
    (demoOpt.Run okClient [Except.ok "n"] ()).2.1 = Outcome.ok ∧
    (demoOpt.Run okClient [Except.ok "n"] ()).2.2 = () :=
  ⟨(spec_C5 Unit demoOpt okClient [Except.ok "n"] () [Event.print promptMsg]
      (by decide)).1,
   (spec_C5 Unit demoOpt okClient [Except.ok "n"] () [Event.print promptMsg]
      (by decide)).2.1⟩

theorem Complete_trace (o : CommandDeInitOption) (env : CompleteEnv) :
    ∀ ev ∈ (o.Complete env).1, ev = Event.getNamespaceCall o.ns := by
  intro ev h
  unfold CommandDeInitOption.Complete at h
  cases hfe : env.fileExists (o.completeKubeConfig env) with
  | false => rw [hfe] at h; simp at h
  | true =>
    rw [hfe] at h
    simp only [Bool.not_true, Bool.false_eq_true, if_false] at h
    rcases hrc : env.restConfig with e | u
    · rw [hrc] at h; simp at h
    · cases u
      rw [hrc] at h
      rcases hcs : env.newClientSet with e | u
      · rw [hcs] at h; simp at h
      · cases u
        rw [hcs] at h
        rcases hg : env.getNamespace o.ns with e | u
        · rw [hg] at h; simp at h; exact h
        · cases u
          rw [hg] at h; simp at h; exact h

/-- C7: when `Complete` fails (missing kubeconfig file, rest-config or
client-set construction failure, or a failed namespace get), the command
entry point returns that error with the client state untouched and `Run`
never invoked: the whole trace holds at most the namespace get issued by
`Complete` itself — no resource discovery, deletion or node update. -/
theorem spec_C7 (σ : Type) (env : CompleteEnv) (o : CommandDeInitOption) (c : Client σ)
    (input : List (Except String String)) (s : σ) (ctr : List Event) (e : DeinitErr)
    (hc : o.Complete env = (ctr, Except.error e)) :
    NewCmdDeInitRunE o env c input s = (ctr, Outcome.fail e, s) ∧
    (∀ ev ∈ ctr, ev = Event.getNamespaceCall o.ns) := by
  constructor
  · unfold NewCmdDeInitRunE
    rw [hc]
  · intro ev hev
    exact Complete_trace o env ev (by rw [hc]; exact hev)

/-- Witness for C7: with no kubeconfig file present the entry point
fails with `ErrEmptyConfig`, an empty trace and an unchanged state. -/
theorem spec_C7_witness :
    NewCmdDeInitRunE demoOpt absentEnv okClient [Except.ok "y"] ()
      = ([], Outcome.fail DeinitErr.emptyConfig, ()) :=
  (spec_C7 Unit absentEnv demoOpt okClient [Except.ok "y"] () []
    DeinitErr.emptyConfig (by decide)).1

/-- C8: the confirmation prompt is case-insensitive on `y`/`yes` (answer
true) and `n`/`no` (answer false), and any other token makes it read the
next line instead of returning an answer or failing. -/
theorem spec_C8 (s : String) (rest : List (Except String String)) :
    (strToLower s = "y" ∨ strToLower s = "yes" →
      deleteConfirmation (Except.ok s :: rest)
        = ([Event.print promptMsg], .answer true)) ∧
    (strToLower s = "n" ∨ strToLower s = "no" →
      deleteConfirmation (Except.ok s :: rest)
        = ([Event.print promptMsg], .answer false)) ∧
    (strToLower s ≠ "y" → strToLower s ≠ "yes" → strToLower s ≠ "n" →
      strToLower s ≠ "no" →
      deleteConfirmation (Except.ok s :: rest)
        = (Event.print promptMsg :: (deleteConfirmation rest).1,
           (deleteConfirmation rest).2)) := by
  refine ⟨?_, ?_, ?_⟩
  · rintro (h | h) <;> simp [deleteConfirmation, h]
  · rintro (h | h) <;> simp [deleteConfirmation, h]
  · intro h1 h2 h3 h4
    have e1 : (strToLower s == "y") = false := by simp [h1]
    have e2 : (strToLower s == "yes") = false := by simp [h2]
    have e3 : (strToLower s == "n") = false := by simp [h3]
    have e4 : (strToLower s == "no") = false := by simp [h4]
    simp [deleteConfirmation, e1, e2, e3, e4]

/-- Witness for C8: `YeS` answers true, `No` answers false, and `maybe`
re-prompts on the following line. -/
theorem spec_C8_witness :
    deleteConfirmation [Except.ok "YeS"] = ([Event.print promptMsg], .answer true) ∧
    deleteConfirmation [Except.ok "No"] = ([Event.print promptMsg], .answer false) ∧
    deleteConfirmation [Except.ok "maybe", Except.ok "N"]
      = (Event.print promptMsg :: (deleteConfirmation [Except.ok "N"]).1,
         (deleteConfirmation [Except.ok "N"]).2) :=
  ⟨(spec_C8 "YeS" []).1 (Or.inr (by decide)),
   (spec_C8 "No" []).2.1 (Or.inr (by decide)),
   (spec_C8 "maybe" [Except.ok "N"]).2.2 (by decide) (by decide) (by decide)
     (by decide)⟩

/-- C9: a failed scan of the confirmation line prints the scan error and
terminates the process with exit status 1, consuming no further input:
it neither re-prompts nor returns an answer to the caller. -/
theorem spec_C9 (m : String) (rest : List (Except String String)) :
    deleteConfirmation (Except.error m :: rest)
      = ([Event.print promptMsg, Event.print m], .exited 1) := rfl

/-- C10: with an empty kubeconfig flag, `Complete` checks the default
path `$HOME/.kube/config`, and when that file is absent it returns
`ErrEmptyConfig` without any API call. -/
theorem spec_C10 (env : CompleteEnv) (o : CommandDeInitOption)
    (hkc : o.kubeConfig = "")
    (habs : env.fileExists (filepathJoin env.home ".kube/config") = false) :
    o.completeKubeConfig env = filepathJoin env.home ".kube/config" ∧
    o.Complete env = ([], Except.error DeinitErr.emptyConfig) := by
  have hpath : o.completeKubeConfig env = filepathJoin env.home ".kube/config" := by
    simp [CommandDeInitOption.completeKubeConfig, hkc]
  refine ⟨hpath, ?_⟩
  unfold CommandDeInitOption.Complete
  rw [hpath, habs]
  rfl

/-- Witness for C10: the default options (empty kubeconfig flag) on an
environment with no file yield `ErrEmptyConfig` at `$HOME/.kube/config`. -/
theorem spec_C10_witness :
    demoOpt.completeKubeConfig absentEnv = filepathJoin "/root" ".kube/config" ∧
    demoOpt.Complete absentEnv = ([], Except.error DeinitErr.emptyConfig) :=
  ⟨(spec_C10 absentEnv demoOpt rfl rfl).1, (spec_C10 absentEnv demoOpt rfl rfl).2⟩

theorem andThen_error_result {σ : Type} (a : List Event × Except KErr Unit × σ)
    (f : σ → List Event × Except KErr Unit × σ) (e : KErr)
    (h : a.2.1 = Except.error e) :
    (andThen a f).2.1 = Except.error e ∧ (andThen a f).1 = a.1 := by
  rcases a with ⟨tr, res, s⟩
  cases res with
  | error e' =>
    have he : e' = e := by injection h
    subst he
    exact ⟨rfl, rfl⟩
  | ok u => cases u; cases h

theorem retireLoop_oracle_ok (lists : Kind → Except KErr (List KObj))
    (dels : Kind → String → Except KErr Unit) (nodesL : Except KErr (List KNode))
    (upd : KNode → Except KErr Unit) (k : Kind) :
    ∀ l : List KObj, (∀ p ∈ l, dels k p.name = Except.ok ()) →
      ∀ u : Unit,
        (retireLoop (oracleClient lists dels nodesL upd) false k l u).2.1
          = Except.ok () := by
  intro l
  induction l with
  | nil => intro _ u; rfl
  | cons p l ih =>
    intro h u
    have hp : dels k p.name = Except.ok () := h p (List.mem_cons_self p l)
    have ih' := ih (fun q hq => h q (List.mem_cons_of_mem p hq)) ()
    simp [retireLoop, oracleClient, hp]
    exact ih'

theorem retireLoop_oracle_abort (lists : Kind → Except KErr (List KObj))
    (dels : Kind → String → Except KErr Unit) (nodesL : Except KErr (List KNode))
    (upd : KNode → Except KErr Unit) (k : Kind) (x : KObj) (e : KErr)
    (post : List KObj) (hx : dels k x.name = Except.error e) :
    ∀ pre : List KObj, (∀ p ∈ pre, dels k p.name = Except.ok ()) →
      ∀ u : Unit,
        (retireLoop (oracleClient lists dels nodesL upd) false k (pre ++ x :: post) u).2.1
          = Except.error e := by
  intro pre
  induction pre with
  | nil =>
    intro _ u
    simp [retireLoop, oracleClient, hx]
  | cons p pre ih =>
    intro hpre u
    have hp : dels k p.name = Except.ok () := hpre p (List.mem_cons_self p pre)
    have ih' := ih (fun q hq => hpre q (List.mem_cons_of_mem p hq)) ()
    simp only [List.cons_append]
    simp [retireLoop, oracleClient, hp]
    exact ih'

theorem deleteStage_oracle_ok_res (lists : Kind → Except KErr (List KObj))
    (dels : Kind → String → Except KErr Unit) (nodesL : Except KErr (List KNode))
    (upd : KNode → Except KErr Unit) (k : Kind) (l : List KObj)
    (hk : lists k = Except.ok l) (hdels : ∀ p ∈ l, dels k p.name = Except.ok ()) :
    ∀ u : Unit,
      (deleteStage (oracleClient lists dels nodesL upd) false k u).2.1
        = Except.ok () := by
  intro u
  simp only [deleteStage, oracleClient, hk]
  exact retireLoop_oracle_ok lists dels nodesL upd k l hdels ()

theorem deleteStage_oracle_abort_res (lists : Kind → Except KErr (List KObj))
    (dels : Kind → String → Except KErr Unit) (nodesL : Except KErr (List KNode))
    (upd : KNode → Except KErr Unit) (k : Kind) (pre post : List KObj) (x : KObj)
    (e : KErr) (hk : lists k = Except.ok (pre ++ x :: post))
    (hpre : ∀ p ∈ pre, dels k p.name = Except.ok ())
    (hx : dels k x.name = Except.error e) :
    ∀ u : Unit,
      (deleteStage (oracleClient lists dels nodesL upd) false k u).2.1
        = Except.error e := by
  intro u
  simp only [deleteStage, oracleClient, hk]
  exact retireLoop_oracle_abort lists dels nodesL upd k x e post hx pre hpre ()

/-- C1 counterexample: with dry-run false and a delete call answering
"not found" for the one matched deployment, the teardown does not treat
it as success and continue — it aborts at once with that error: the
result is the not-found error, no Service stage is ever reached, and the
whole run fails. -/
theorem spec_C1_counterexample :
    (notFoundKErr "karmada-demo").notFound = true ∧
    demoOpt.dryRun = false ∧
    (demoOpt.delete cexClient ()).2.1 = Except.error (notFoundKErr "karmada-demo") ∧
    Event.listCall .service ∉ (demoOpt.delete cexClient ()).1 ∧
    (demoOpt.Run cexClient [Except.ok "y"] ()).2.1
      = Outcome.fail (.api (notFoundKErr "karmada-demo")) := by decide

/-- C1 (amended): in a non-dry run, a failing delete call in any of the
five kinds' loops — whether it reports "not found" or anything else —
aborts the sequence immediately with that error: with the stages before
the failing kind completing normally, `delete` returns the error and no
event of any stage after the failing kind (no discovery and no deletion
of a later kind) appears in the trace.  The code checks only
`err != nil` and has no "not found" tolerance. -/
theorem spec_C1 (lists : Kind → Except KErr (List KObj))
    (dels : Kind → String → Except KErr Unit) (nodesL : Except KErr (List KNode))
    (upd : KNode → Except KErr Unit) (o : CommandDeInitOption) (k : Kind)
    (items : Kind → List KObj) (pre post : List KObj) (x : KObj) (e : KErr)
    (hdry : o.dryRun = false)
    (hok_lists : ∀ k', stageNum k' < stageNum k → lists k' = Except.ok (items k'))
    (hok_dels : ∀ k', stageNum k' < stageNum k → ∀ p ∈ items k',
      dels k' p.name = Except.ok ())
    (hlist : lists k = Except.ok (pre ++ x :: post))
    (hpre : ∀ p ∈ pre, dels k p.name = Except.ok ())
    (hx : dels k x.name = Except.error e) :
    (o.delete (oracleClient lists dels nodesL upd) ()).2.1 = Except.error e ∧
    ∀ ev ∈ (o.delete (oracleClient lists dels nodesL upd) ()).1,
      ∀ m, stageOf ev = some m → m ≤ stageNum k := by
  have habort : ∀ u : Unit,
      (deleteStage (oracleClient lists dels nodesL upd) false k u).2.1
        = Except.error e :=
    deleteStage_oracle_abort_res lists dels nodesL upd k pre post x e hlist hpre hx
  have hstageok : ∀ k', stageNum k' < stageNum k → ∀ u : Unit,
      (deleteStage (oracleClient lists dels nodesL upd) false k' u).2.1
        = Except.ok () :=
    fun k' hk' => deleteStage_oracle_ok_res lists dels nodesL upd k' (items k')
      (hok_lists k' hk') (hok_dels k' hk')
  constructor
  · cases k with
    | deployment =>
      unfold CommandDeInitOption.delete CommandDeInitOption.deleteWorkload
      rw [hdry]
      exact (andThen_error_result _ _ e
        ((andThen_error_result _ _ e (habort ())).1)).1
    | statefulSet =>
      unfold CommandDeInitOption.delete CommandDeInitOption.deleteWorkload
      rw [hdry]
      exact (andThen_error_result _ _ e
        ((andThen_ok_out _ _ (hstageok .deployment (by decide) ())).trans
          (habort _))).1
    | service =>
      unfold CommandDeInitOption.delete CommandDeInitOption.deleteWorkload
      rw [hdry]
      have hW : (andThen
          (deleteStage (oracleClient lists dels nodesL upd) false .deployment ())
          (fun s₁ => deleteStage (oracleClient lists dels nodesL upd) false
            .statefulSet s₁)).2.1 = Except.ok () :=
        (andThen_ok_out _ _ (hstageok .deployment (by decide) ())).trans
          (hstageok .statefulSet (by decide) _)
      exact (andThen_ok_out _ _ hW).trans ((andThen_error_result _ _ e (habort _)).1)
    | secret =>
      unfold CommandDeInitOption.delete CommandDeInitOption.deleteWorkload
      rw [hdry]
      have hW : (andThen
          (deleteStage (oracleClient lists dels nodesL upd) false .deployment ())
          (fun s₁ => deleteStage (oracleClient lists dels nodesL upd) false
            .statefulSet s₁)).2.1 = Except.ok () :=
        (andThen_ok_out _ _ (hstageok .deployment (by decide) ())).trans
          (hstageok .statefulSet (by decide) _)
      exact (andThen_ok_out _ _ hW).trans
        ((andThen_ok_out _ _ (hstageok .service (by decide) _)).trans
          ((andThen_error_result _ _ e (habort _)).1))
    | clusterRole =>
      unfold CommandDeInitOption.delete CommandDeInitOption.deleteWorkload
      rw [hdry]
      have hW : (andThen
          (deleteStage (oracleClient lists dels nodesL upd) false .deployment ())
          (fun s₁ => deleteStage (oracleClient lists dels nodesL upd) false
            .statefulSet s₁)).2.1 = Except.ok () :=
        (andThen_ok_out _ _ (hstageok .deployment (by decide) ())).trans
          (hstageok .statefulSet (by decide) _)
      exact (andThen_ok_out _ _ hW).trans
        ((andThen_ok_out _ _ (hstageok .service (by decide) _)).trans
          ((andThen_ok_out _ _ (hstageok .secret (by decide) _)).trans (habort _)))
  · intro ev hev m hst
    by_contra hgt
    push_neg at hgt
    cases k with
    | deployment =>
      have hd := delete_event_dep_ok o (oracleClient lists dels nodesL upd) () ev m
        hev hst (by simp [stageNum] at hgt; omega)
      rw [hdry, habort ()] at hd
      cases hd
    | statefulSet =>
      have hwerr :
          (o.deleteWorkload (oracleClient lists dels nodesL upd) ()).2.1
            = Except.error e := by
        unfold CommandDeInitOption.deleteWorkload
        rw [hdry]
        exact (andThen_ok_out _ _ (hstageok .deployment (by decide) ())).trans
          (habort _)
      have hw := delete_event_workload_ok o (oracleClient lists dels nodesL upd) () ev m
        hev hst (by simp [stageNum] at hgt; omega)
      rw [hwerr] at hw
      cases hw
    | service =>
      have hs := delete_event_service_ok o (oracleClient lists dels nodesL upd) () ev m
        hev hst (by simp [stageNum] at hgt; omega)
      rw [hdry, habort _] at hs
      cases hs
    | secret =>
      have hs := delete_event_secret_ok o (oracleClient lists dels nodesL upd) () ev m
        hev hst (by simp [stageNum] at hgt; omega)
      rw [hdry, habort _] at hs
      cases hs
    | clusterRole =>
      rcases delete_stageOf o (oracleClient lists dels nodesL upd) () ev hev
        with h | ⟨m2, h, h2⟩
      · rw [h] at hst; cases hst
      · rw [h] at hst
        injection hst with h3
        simp [stageNum] at hgt
        omega

/-- Witness for C1 (amended) at the concrete scenario of the
counterexample: the one matched deployment's delete answers "not found",
the sequence aborts with that error, and the trace's only staged events
are deployment-stage ones. -/
theorem spec_C1_witness :
    (demoOpt.delete cexClient ()).2.1 = Except.error (notFoundKErr "karmada-demo") ∧
    (0 : Nat) ≤ stageNum Kind.deployment :=
  ⟨(spec_C1 cexLists cexDels (Except.ok []) (fun _ => Except.ok ()) demoOpt .deployment
      (fun _ => []) [] []
      ⟨"karmada-demo", [("karmada.io/bootstrapping", "resource-defaults")]⟩
      (notFoundKErr "karmada-demo") rfl
      (fun _ hk' => absurd hk' (Nat.not_lt_zero _))
      (fun _ hk' => absurd hk' (Nat.not_lt_zero _))
      rfl (fun p hp => absurd hp (List.not_mem_nil p)) rfl).1,
   (spec_C1 cexLists cexDels (Except.ok []) (fun _ => Except.ok ()) demoOpt .deployment
      (fun _ => []) [] []
      ⟨"karmada-demo", [("karmada.io/bootstrapping", "resource-defaults")]⟩
      (notFoundKErr "karmada-demo") rfl
      (fun _ hk' => absurd hk' (Nat.not_lt_zero _))
      (fun _ hk' => absurd hk' (Nat.not_lt_zero _))
      rfl (fun p hp => absurd hp (List.not_mem_nil p)) rfl).2
      (Event.listCall .deployment) (by decide) 0 rfl⟩

/-- C6: the label-strip behaviour.  (1) On the spec's example node the
pass removes exactly the marker label and keeps the unrelated one.
(2) A label map with no key containing the marker substring is left
unchanged.  (3) When node discovery matches zero nodes, the pass prints
the informational line and returns success with the state untouched. -/
theorem spec_C6 :
    (removeLabels [("karmada.io/etcd", ""), ("other.io/x", "1")] karmadaNodeLabel
      = [("other.io/x", "1")]) ∧
    (∀ ls : Labels, (∀ kv ∈ ls, strContains kv.1 karmadaNodeLabel = false) →
      removeLabels ls karmadaNodeLabel = ls) ∧
    (∀ (σ : Type) (o : CommandDeInitOption) (c : Client σ) (s s' : σ),
      c.listNodes s = (Except.ok [], s') →
      o.removeNodeLabels c s
        = ([Event.listNodesCall, Event.print nodeNotFoundMsg], Except.ok (), s')) := by
  refine ⟨by decide, ?_, ?_⟩
  · intro ls h
    apply List.filter_eq_self.mpr
    intro kv hkv
    rw [h kv hkv]
    rfl
  · intro σ o c s s' hl
    unfold CommandDeInitOption.removeNodeLabels
    rw [hl]
    rfl

/-- Witness for C6: a label map without the marker is unchanged, and a
client listing zero nodes makes the pass print the notice and succeed. -/
theorem spec_C6_witness :
    removeLabels [("app", "x")] karmadaNodeLabel = [("app", "x")] ∧
    demoOpt.removeNodeLabels okClient ()
      = ([Event.listNodesCall, Event.print nodeNotFoundMsg], Except.ok (), ()) :=
  ⟨spec_C6.2.1 [("app", "x")] (by decide),
   spec_C6.2.2 Unit demoOpt okClient () () rfl⟩

theorem isPrefixList_self : ∀ l : List Char, isPrefixList l l = true := by
  intro l
  induction l with
  | nil => rfl
  | cons a as ih => simp [isPrefixList, ih]

theorem containsSub_self : ∀ l : List Char, containsSub l l = true := by
  intro l
  cases l with
  | nil => rfl
  | cons a as => simp [containsSub, isPrefixList_self]

theorem strContains_self (s : String) : strContains s s = true :=
  containsSub_self s.data

theorem hasLabelKey_removeLabels (ls : Labels) (key : String) :
    hasLabelKey (removeLabels ls key) key = false := by
  by_contra hcon
  rw [Bool.not_eq_false] at hcon
  rcases List.any_eq_true.mp hcon with ⟨kv, hmem, hkv⟩
  rcases List.mem_filter.mp hmem with ⟨_, hfil⟩
  have hk : kv.1 = key := by simpa using hkv
  rw [hk, strContains_self] at hfil
  cases hfil

theorem clusterClient_updateNode_ok (n : KNode) (s : Cluster) (s' : Cluster)
    (h : clusterClient.updateNode n s = (Except.ok (), s')) :
    s' = { s with nodes := s.nodes.map (fun m => if m.name == n.name then n else m) } := by
  simp only [clusterClient] at h
  by_cases hany : (s.nodes.any (fun m => m.name == n.name)) = true
  · rw [if_pos hany] at h
    injection h with h1 h2
    exact h2.symm
  · rw [if_neg hany] at h
    injection h with h1 h2
    cases h1

theorem nodeLoop_cluster_strips :
    ∀ (ns : List KNode) (s : Cluster),
      (∀ n ∈ s.nodes, hasLabelKey n.labels karmadaNodeLabel = true →
        n.name ∈ ns.map KNode.name) →
      ∀ (tr : List Event) (s' : Cluster),
        nodeLoop clusterClient false ns s = (tr, Except.ok (), s') →
        ∀ n ∈ s'.nodes, hasLabelKey n.labels karmadaNodeLabel = false := by
  intro ns
  induction ns with
  | nil =>
    intro s hinv tr s' heq n hn
    have hs : s' = s := by
      simp only [nodeLoop] at heq
      injection heq with h1 h2
      injection h2 with h3 h4
      exact h4.symm
    subst hs
    by_contra hcon
    rw [Bool.not_eq_false] at hcon
    have hmem := hinv n hn hcon
    simp at hmem
  | cons m ms ih =>
    intro s hinv tr s' heq n hn
    simp only [nodeLoop, Bool.false_eq_true, if_false] at heq
    rcases hupd : clusterClient.updateNode ⟨m.name, removeLabels m.labels karmadaNodeLabel⟩ s
      with ⟨ures, s₁⟩
    rw [hupd] at heq
    cases ures with
    | error e =>
      dsimp only at heq
      injection heq with h1 h2
      injection h2 with h3 h4
      cases h3
    | ok u =>
      cases u
      dsimp only at heq
      rcases hr : nodeLoop clusterClient false ms s₁ with ⟨tr', res', s₂⟩
      rw [hr] at heq
      dsimp only at heq
      injection heq with h1 h2
      injection h2 with h3 h4
      subst h4
      have hs₁ := clusterClient_updateNode_ok _ s s₁ hupd
      dsimp only at hs₁
      refine ih s₁ ?_ tr' s₂ (by rw [hr, h3]) n hn
      intro q hq hkey
      rw [hs₁] at hq
      simp only [List.mem_map] at hq
      rcases hq with ⟨p, hp, hpq⟩
      by_cases hname : (p.name == m.name) = true
      · rw [if_pos hname] at hpq
        rw [← hpq] at hkey
        dsimp only at hkey
        rw [hasLabelKey_removeLabels] at hkey
        cases hkey
      · rw [if_neg hname] at hpq
        rw [← hpq] at hkey ⊢
        have hp' := hinv p hp hkey
        simp only [List.map_cons, List.mem_cons] at hp'
        rcases hp' with hp' | hp'
        · exact absurd (beq_iff_eq.mpr hp') hname
        · exact hp'

theorem clusterClient_listNodes (s : Cluster) :
    clusterClient.listNodes s
      = (Except.ok (s.nodes.filter (fun n => hasLabelKey n.labels karmadaNodeLabel)), s) := rfl

theorem removeNodeLabels_cluster_strips (o : CommandDeInitOption) (s : Cluster)
    (hdry : o.dryRun = false) (tr : List Event) (s' : Cluster)
    (heq : o.removeNodeLabels clusterClient s = (tr, Except.ok (), s')) :
    ∀ n ∈ s'.nodes, hasLabelKey n.labels karmadaNodeLabel = false := by
  unfold CommandDeInitOption.removeNodeLabels at heq
  rw [hdry, clusterClient_listNodes] at heq
  dsimp only at heq
  by_cases h0 :
      ((s.nodes.filter (fun n => hasLabelKey n.labels karmadaNodeLabel)).length == 0) = true
  · rw [if_pos h0] at heq
    injection heq with h1 h2
    injection h2 with h3 h4
    intro n hn
    rw [← h4] at hn
    have hlen :
        (s.nodes.filter (fun n => hasLabelKey n.labels karmadaNodeLabel)).length = 0 := by
      simpa using h0
    have hnil := List.length_eq_zero.mp hlen
    have hall := List.filter_eq_nil_iff.mp hnil
    have hn2 := hall n hn
    rw [Bool.not_eq_true] at hn2
    exact hn2
  · rw [if_neg h0] at heq
    rcases hr : nodeLoop clusterClient false
      (s.nodes.filter (fun n => hasLabelKey n.labels karmadaNodeLabel)) s
      with ⟨tr', res', s₂⟩
    rw [hr] at heq
    dsimp only at heq
    injection heq with h1 h2
    injection h2 with h3 h4
    subst h4
    refine nodeLoop_cluster_strips _ s ?_ tr' s₂ (by rw [hr, h3])
    intro q hq hkey
    exact List.mem_map_of_mem KNode.name (List.mem_filter.mpr ⟨hq, hkey⟩)

/-- C4 counterexample: on a cluster whose only node carries the label
key `karmada.io/etcdx` — which *contains* the marker substring but is
not the exact marker key — a confirmed non-dry-run teardown succeeds,
yet the node keeps that label: node discovery selects by the exact key
`karmada.io/etcd`, so the node is never matched or updated, while the
claim demands every containing key be removed. -/
theorem spec_C4_counterexample :
    demoOpt.dryRun = false ∧
    (demoOpt.Run clusterClient [Except.ok "y"] etcdVariantCluster).2.1 = Outcome.ok ∧
    (demoOpt.Run clusterClient [Except.ok "y"] etcdVariantCluster).2.2.nodes
      = [⟨"n1", [("karmada.io/etcdx", "1")]⟩] ∧
    strContains "karmada.io/etcdx" karmadaNodeLabel = true := by decide

/-- C4 (amended): after a successful confirmed non-dry-run teardown
against the in-memory cluster semantics, no node retains the exact
bootstrap marker label key `karmada.io/etcd` — every node that carried
it was stripped of all keys containing the marker substring and
updated.  (Keys that merely contain the substring on nodes lacking the
exact key are outside the discovery selector and may remain.) -/
theorem spec_C4 (o : CommandDeInitOption) (input : List (Except String String))
    (c₀ : Cluster) (ctr : List Event) (hdry : o.dryRun = false)
    (hconf : deleteConfirmation input = (ctr, .answer true))
    (tr : List Event) (c₁ : Cluster)
    (hrun : o.Run clusterClient input c₀ = (tr, Outcome.ok, c₁)) :
    ∀ n ∈ c₁.nodes, hasLabelKey n.labels karmadaNodeLabel = false := by
  rcases hdel : o.delete clusterClient c₀ with ⟨dtr, dres, s'⟩
  cases dres with
  | error e =>
    rw [Run_deleteError o clusterClient input c₀ ctr dtr e s' hconf hdel] at hrun
    injection hrun with h1 h2
    injection h2 with h3 h4
    cases h3
  | ok u =>
    cases u
    rcases hnode : o.removeNodeLabels clusterClient s' with ⟨ntr, nres, s''⟩
    cases nres with
    | error e =>
      rw [Run_nodeError o clusterClient input c₀ ctr dtr ntr e s' s'' hconf hdel hnode]
        at hrun
      injection hrun with h1 h2
      injection h2 with h3 h4
      cases h3
    | ok u =>
      cases u
      rw [Run_ok o clusterClient input c₀ ctr dtr ntr s' s'' hconf hdel hnode] at hrun
      injection hrun with h1 h2
      injection h2 with h3 h4
      subst h4
      exact removeNodeLabels_cluster_strips o s' hdry ntr s'' hnode

/-- Witness for C4 (amended): on the cluster whose node carries the
exact marker key, the run strips it, leaving only the unrelated label. -/
theorem spec_C4_witness :
    hasLabelKey [("other.io/x", "1")] karmadaNodeLabel = false :=
  spec_C4 demoOpt [Except.ok "y"] etcdCluster [Event.print promptMsg] rfl (by decide)
    (demoOpt.Run clusterClient [Except.ok "y"] etcdCluster).1
    (demoOpt.Run clusterClient [Except.ok "y"] etcdCluster).2.2
    (by decide) ⟨"n1", [("other.io/x", "1")]⟩ (by decide)
